import Mathlib

/-!
# Verification of the 2048 board engine (rabo1212/2048game)

Shallow embedding of the game-state engine of the repository:

* `src/App.tsx` — grid-based engine: `slideLeft` (filter / in-place merge
  loop with `splice` / zero padding), `move` (per-direction line loops),
  `canMove`, `addRandomTile`, and the state update performed when a move
  is accepted.
* `src/unnamed/part_000` — tile-list-based engine: tiles are records
  `{value, row, col}`; `move` filters the tiles of each line, sorts them
  by travel order, and rebuilds the line while merging adjacent equal
  pairs; `tilesToGrid`, `canMove`, `addRandomTile` and the win check
  `finalTiles.some(t => t.value === 2048)`.

Boards are `List (List Nat)` (row-major, `0` = empty); JS array reads
`a[i]` are embedded as `List.getD i` (all theorems about whole boards
assume the 4×4 well-formedness invariant that the game maintains).
The ambient `Math.random()` calls are embedded as explicit parameters:
the index of the chosen empty cell and the 2-vs-4 choice.
-/

namespace Game2048

set_option autoImplicit false

/-- Grid size constant of both sources (`const GRID_SIZE = 4`). -/
def GRID_SIZE : Nat := 4

/-- One move direction (`'up' | 'down' | 'left' | 'right'`). -/
inductive Direction where
  | up
  | down
  | left
  | right
deriving DecidableEq

/-! ## The merge loop of `slideLeft` (src/App.tsx, lines 96–113)

```js
for (let i = 0; i < arr.length - 1; i++) {
  if (arr[i] === arr[i + 1]) {
    arr[i] *= 2;
    points += arr[i];
    arr.splice(i + 1, 1);
  }
}
```

`arr[i] *= 2; points += arr[i]` adds the doubled value to `points`.
The loop re-reads `arr.length` after each `splice`. -/

/-- The in-place merge loop of `slideLeft`, state `(arr, i, points)`. -/
def mergeLoop (arr : List Nat) (i : Nat) (points : Nat) : List Nat × Nat :=
  if h : i + 1 < arr.length then
    if arr.getD i 0 = arr.getD (i + 1) 0 then
      mergeLoop ((arr.set i (2 * arr.getD i 0)).eraseIdx (i + 1)) (i + 1)
        (points + 2 * arr.getD i 0)
    else
      mergeLoop arr (i + 1) points
  else
    (arr, points)
termination_by arr.length - i
decreasing_by
  · simp only [List.length_eraseIdx, List.length_set]
    rw [if_pos h]
    omega
  · omega

/-- Modelled from the spec (§4.1 step 3): scanning front-to-back, if the
current tile's value equals the very next tile's value, replace both with
a single tile of double the value, add that doubled value to the point
total, and advance past both source tiles (no chain merges). -/
def mergeSpec : List Nat → List Nat × Nat
  | [] => ([], 0)
  | [a] => ([a], 0)
  | a :: b :: t =>
    if a = b then
      ((2 * a) :: (mergeSpec t).1, (mergeSpec t).2 + 2 * a)
    else
      (a :: (mergeSpec (b :: t)).1, (mergeSpec (b :: t)).2)

/-- Recursion principle following the two-step pattern of the merge scan. -/
def twoStepRec {α : Type} {motive : List α → Sort _} (h1 : motive [])
    (h2 : ∀ a, motive [a])
    (h3 : ∀ a b t, motive t → motive (b :: t) → motive (a :: b :: t)) :
    ∀ l, motive l
  | [] => h1
  | [a] => h2 a
  | a :: b :: t =>
    h3 a b t (twoStepRec h1 h2 h3 t) (twoStepRec h1 h2 h3 (b :: t))

theorem mergeSpec_nil : mergeSpec [] = ([], 0) := rfl

theorem mergeSpec_single (a : Nat) : mergeSpec [a] = ([a], 0) := rfl

theorem mergeSpec_cons_cons (a b : Nat) (t : List Nat) :
    mergeSpec (a :: b :: t) =
      if a = b then
        ((2 * a) :: (mergeSpec t).1, (mergeSpec t).2 + 2 * a)
      else
        (a :: (mergeSpec (b :: t)).1, (mergeSpec (b :: t)).2) := rfl

/-- Unfolding equation for one iteration of the merge loop. -/
theorem mergeLoop_eq (arr : List Nat) (i points : Nat) :
    mergeLoop arr i points =
      if i + 1 < arr.length then
        if arr.getD i 0 = arr.getD (i + 1) 0 then
          mergeLoop ((arr.set i (2 * arr.getD i 0)).eraseIdx (i + 1)) (i + 1)
            (points + 2 * arr.getD i 0)
        else
          mergeLoop arr (i + 1) points
      else
        (arr, points) := by
  rw [mergeLoop]
  rfl

theorem getD_append_length {pre rest : List Nat} {d : Nat} :
    (pre ++ rest).getD pre.length d = rest.getD 0 d := by
  cases rest with
  | nil => simp [List.getD]
  | cons a t =>
    simp [List.getD, List.getElem?_append_right (Nat.le_refl pre.length)]

theorem getD_append_length_succ {pre rest : List Nat} {d : Nat} :
    (pre ++ rest).getD (pre.length + 1) d = rest.getD 1 d := by
  cases rest with
  | nil =>
    rw [List.getD_eq_getElem?_getD, List.append_nil,
      List.getElem?_eq_none (Nat.le_succ _)]
    rfl
  | cons a t =>
    have h : pre.length ≤ pre.length + 1 := Nat.le_succ _
    simp [List.getD, List.getElem?_append_right h]

theorem set_append_length {pre rest : List Nat} {v : Nat} :
    (pre ++ rest).set pre.length v = pre ++ rest.set 0 v := by
  induction pre with
  | nil => rfl
  | cons a t ih => simp [List.set, ih]

theorem eraseIdx_append_length_succ {pre : List Nat} {a : Nat}
    {rest : List Nat} :
    (pre ++ a :: rest).eraseIdx (pre.length + 1) =
      pre ++ a :: rest.eraseIdx 0 := by
  induction pre with
  | nil => rfl
  | cons x t ih => simpa [List.eraseIdx] using ih

/-- The imperative merge loop, started at index `i = pre.length` on
`pre ++ rest`, leaves `pre` untouched and performs the spec's front-to-back
two-step merge scan on `rest`. -/
theorem mergeLoop_spec_general (rest : List Nat) :
    ∀ (pre : List Nat) (p : Nat),
      mergeLoop (pre ++ rest) pre.length p =
        (pre ++ (mergeSpec rest).1, p + (mergeSpec rest).2) := by
  induction rest using twoStepRec with
  | h1 =>
    intro pre p
    rw [mergeLoop_eq]
    simp [mergeSpec_nil]
  | h2 a =>
    intro pre p
    rw [mergeLoop_eq]
    simp [mergeSpec_single]
  | h3 a b t iht ihbt =>
    intro pre p
    rw [mergeLoop_eq]
    have hlen : pre.length + 1 < (pre ++ a :: b :: t).length := by
      simp
    rw [if_pos hlen]
    have ha : (pre ++ a :: b :: t).getD pre.length 0 = a :=
      @getD_append_length pre (a :: b :: t) 0
    have hb : (pre ++ a :: b :: t).getD (pre.length + 1) 0 = b := by
      rw [@getD_append_length_succ pre (a :: b :: t) 0]
      rfl
    rw [ha, hb]
    by_cases hab : a = b
    · rw [if_pos hab]
      have hset : ((pre ++ a :: b :: t).set pre.length (2 * a)).eraseIdx
          (pre.length + 1) = (pre ++ [2 * a]) ++ t := by
        rw [set_append_length]
        simp only [List.set]
        rw [eraseIdx_append_length_succ]
        simp
      rw [hset]
      have hlen' : pre.length + 1 = (pre ++ [2 * a]).length := by simp
      rw [hlen', iht]
      subst hab
      simp [mergeSpec_cons_cons]
      omega
    · rw [if_neg hab]
      have hsplit : pre ++ a :: b :: t = (pre ++ [a]) ++ b :: t := by simp
      have hlen' : pre.length + 1 = (pre ++ [a]).length := by simp
      rw [hsplit, hlen', ihbt]
      simp [mergeSpec_cons_cons, hab]

/-- The JS merge loop started from index 0 computes exactly the spec's
merge scan. -/
theorem mergeLoop_spec (arr : List Nat) (p : Nat) :
    mergeLoop arr 0 p = ((mergeSpec arr).1, p + (mergeSpec arr).2) := by
  have h := mergeLoop_spec_general arr [] p
  simpa using h

/-! ## `slideLeft` (src/App.tsx, lines 96–113) -/

/-- `slideLeft` of src/App.tsx: drop the zeros, run the merge loop, then
pad with zeros up to `GRID_SIZE` (`while (arr.length < GRID_SIZE)
arr.push(0)`). Returns `(newRow, points)`. -/
def slideLeft (row : List Nat) : List Nat × Nat :=
  let arr := row.filter (fun v => v != 0)
  let r := mergeLoop arr 0 0
  (r.1 ++ List.replicate (GRID_SIZE - r.1.length) 0, r.2)

theorem slideLeft_fst (row : List Nat) :
    (slideLeft row).1 =
      (mergeSpec (row.filter (fun v => v != 0))).1 ++
        List.replicate
          (GRID_SIZE - (mergeSpec (row.filter (fun v => v != 0))).1.length) 0 := by
  simp [slideLeft, mergeLoop_spec]

theorem slideLeft_snd (row : List Nat) :
    (slideLeft row).2 = (mergeSpec (row.filter (fun v => v != 0))).2 := by
  simp [slideLeft, mergeLoop_spec]

/-- Closed form of `slideLeft` through the merge scan, used to evaluate it
(the well-founded `mergeLoop` does not reduce definitionally). -/
theorem slideLeft_eq (row : List Nat) :
    slideLeft row =
      ((mergeSpec (row.filter (fun v => v != 0))).1 ++
        List.replicate
          (GRID_SIZE - (mergeSpec (row.filter (fun v => v != 0))).1.length) 0,
       (mergeSpec (row.filter (fun v => v != 0))).2) :=
  Prod.ext (slideLeft_fst row) (slideLeft_snd row)

/-! ## Structural lemmas about the merge scan -/

theorem mergeSpec_sum (l : List Nat) : (mergeSpec l).1.sum = l.sum := by
  induction l using twoStepRec with
  | h1 => rfl
  | h2 a => rfl
  | h3 a b t iht ihbt =>
    rw [mergeSpec_cons_cons]
    by_cases hab : a = b
    · subst hab
      simp [List.sum_cons, iht]
      ring
    · simp [hab, List.sum_cons, ihbt]

theorem mergeSpec_length_le (l : List Nat) :
    (mergeSpec l).1.length ≤ l.length := by
  induction l using twoStepRec with
  | h1 => simp [mergeSpec_nil]
  | h2 a => simp [mergeSpec_single]
  | h3 a b t iht ihbt =>
    rw [mergeSpec_cons_cons]
    by_cases hab : a = b
    · rw [if_pos hab]
      simp only [List.length_cons]
      omega
    · rw [if_neg hab]
      simp only [List.length_cons] at ihbt ⊢
      omega

theorem mergeSpec_ne_zero (l : List Nat) (hl : ∀ x ∈ l, x ≠ 0) :
    ∀ x ∈ (mergeSpec l).1, x ≠ 0 := by
  induction l using twoStepRec with
  | h1 => simp [mergeSpec_nil]
  | h2 a => simpa [mergeSpec_single] using hl
  | h3 a b t iht ihbt =>
    rw [mergeSpec_cons_cons]
    by_cases hab : a = b
    · simp only [hab, if_pos rfl]
      intro x hx
      rcases List.mem_cons.mp hx with h | h
      · subst h
        have : b ≠ 0 := hl b (by simp)
        omega
      · exact iht (fun y hy => hl y (by simp [hy])) x h
    · simp only [if_neg hab]
      intro x hx
      rcases List.mem_cons.mp hx with h | h
      · subst h
        exact hl x (by simp)
      · exact ihbt (fun y hy => hl y (by
          rcases List.mem_cons.mp hy with h' | h' <;> simp [h'])) x h

/-- If the merge scan returns its input unchanged, it scored no points. -/
theorem mergeSpec_eq_self (l : List Nat) (h : (mergeSpec l).1 = l) :
    (mergeSpec l).2 = 0 := by
  induction l using twoStepRec with
  | h1 => rfl
  | h2 a => rfl
  | h3 a b t iht ihbt =>
    rw [mergeSpec_cons_cons] at h ⊢
    by_cases hab : a = b
    · exfalso
      rw [if_pos hab] at h
      have hlen := congrArg List.length h
      have := mergeSpec_length_le t
      simp at hlen
      omega
    · rw [if_neg hab] at h ⊢
      have htail : (mergeSpec (b :: t)).1 = b :: t := by
        have := congrArg List.tail h
        simpa using this
      exact ihbt htail

theorem filter_bne_sum (l : List Nat) :
    (l.filter (fun v => v != 0)).sum = l.sum := by
  induction l with
  | nil => rfl
  | cons a t ih =>
    by_cases ha : a = 0
    · subst ha
      simpa [List.filter_cons] using ih
    · have hb : (a != 0) = true := by simpa using ha
      simp [List.filter_cons, hb, ih]

theorem filter_bne_of_ne_zero (l : List Nat) (hl : ∀ x ∈ l, x ≠ 0) :
    l.filter (fun v => v != 0) = l := by
  induction l with
  | nil => rfl
  | cons a t ih =>
    have ha : a ≠ 0 := hl a (by simp)
    have hb : (a != 0) = true := by simpa using ha
    simp [List.filter_cons, hb, ih (fun y hy => hl y (by simp [hy]))]

theorem filter_bne_mem_ne_zero (l : List Nat) :
    ∀ x ∈ l.filter (fun v => v != 0), x ≠ 0 := by
  intro x hx
  have := List.of_mem_filter hx
  simpa using this

/-- The slide/merge of one line preserves the total value on the line. -/
theorem slideLeft_sum (row : List Nat) : (slideLeft row).1.sum = row.sum := by
  rw [slideLeft_fst]
  rw [List.sum_append]
  simp [mergeSpec_sum, filter_bne_sum]

/-- A row of length ≤ 4 slides to a row of length exactly 4. -/
theorem slideLeft_length (row : List Nat) (h : row.length ≤ GRID_SIZE) :
    (slideLeft row).1.length = GRID_SIZE := by
  rw [slideLeft_fst]
  have h1 : (row.filter (fun v => v != 0)).length ≤ row.length :=
    List.length_filter_le _ _
  have h2 := mergeSpec_length_le (row.filter (fun v => v != 0))
  simp only [List.length_append, List.length_replicate]
  omega

/-- A line that slides to itself scores no points. -/
theorem slideLeft_eq_self (row : List Nat) (h : (slideLeft row).1 = row) :
    (slideLeft row).2 = 0 := by
  rw [slideLeft_fst] at h
  rw [slideLeft_snd]
  set f := row.filter (fun v => v != 0) with hf
  have hfm : ∀ x ∈ (mergeSpec f).1, x ≠ 0 :=
    mergeSpec_ne_zero f (filter_bne_mem_ne_zero row)
  have hfilter : ((mergeSpec f).1 ++
      List.replicate (GRID_SIZE - (mergeSpec f).1.length) 0).filter
        (fun v => v != 0) = (mergeSpec f).1 := by
    rw [List.filter_append]
    rw [filter_bne_of_ne_zero _ hfm]
    simp [List.filter_replicate]
  have : (mergeSpec f).1 = f := by
    have hcongr := congrArg (List.filter (fun v => v != 0)) h
    rw [hfilter] at hcongr
    exact hcongr
  exact mergeSpec_eq_self f this

/-! ## The grid model of src/App.tsx -/

/-- A board, as in src/App.tsx: `number[][]`, row-major, `0` = empty. -/
abbrev Board := List (List Nat)

/-- Well-formedness invariant maintained by the game: a 4×4 grid. -/
def WF (g : Board) : Prop := g.length = GRID_SIZE ∧ ∀ r ∈ g, r.length = GRID_SIZE

instance : DecidablePred WF := fun g => by
  unfold WF
  infer_instance

/-- Read the cell `g[i][j]` (JS indexing, embedded with `getD`). -/
def cell (g : Board) (i j : Nat) : Nat := (g.getD i []).getD j 0

/-- Write one cell, as `newGrid[row][col] = v` does on a fresh copy. -/
def setCell (g : Board) (i j v : Nat) : Board :=
  g.set i ((g.getD i []).set j v)

/-- Read column `c`, as the loop `for row: column.push(newGrid[row][col])`. -/
def getCol (g : Board) (c : Nat) : List Nat :=
  (List.range GRID_SIZE).map fun r => cell g r c

/-- Write column `c`, as the loop `for row: newGrid[row][col] = newRow[row]`. -/
def setCol (g : Board) (c : Nat) (col : List Nat) : Board :=
  (List.range GRID_SIZE).foldl
    (fun acc r => acc.set r ((acc.getD r []).set c (col.getD r 0))) g

/-- The pure content of `move` in src/App.tsx (lines 88–165): the per-line
loops of the four direction branches, threading `(newGrid, totalScore,
moved)`. The rows/columns comparison `original.join(',') !==
newRow.join(',')` is cell-wise list inequality. -/
def moveGrid (d : Direction) (g : Board) : Board × Nat × Bool :=
  match d with
  | .left =>
    (List.range GRID_SIZE).foldl
      (fun acc i =>
        let original := acc.1.getD i []
        let r := slideLeft original
        (acc.1.set i r.1, acc.2.1 + r.2, acc.2.2 || (original != r.1)))
      (g, 0, false)
  | .right =>
    (List.range GRID_SIZE).foldl
      (fun acc i =>
        let original := acc.1.getD i []
        let r := slideLeft original.reverse
        let newRow := r.1.reverse
        (acc.1.set i newRow, acc.2.1 + r.2, acc.2.2 || (original != newRow)))
      (g, 0, false)
  | .up =>
    (List.range GRID_SIZE).foldl
      (fun acc c =>
        let column := getCol acc.1 c
        let r := slideLeft column
        (setCol acc.1 c r.1, acc.2.1 + r.2, acc.2.2 || (column != r.1)))
      (g, 0, false)
  | .down =>
    (List.range GRID_SIZE).foldl
      (fun acc c =>
        let column := getCol acc.1 c
        let r := slideLeft column.reverse
        let finalCol := r.1.reverse
        (setCol acc.1 c finalCol, acc.2.1 + r.2, acc.2.2 || (column != finalCol)))
      (g, 0, false)

/-- `canMove` of src/App.tsx (lines 76–85): true when a cell is empty or a
right/down neighbour holds the same value (the early `return true` loops
become `any`). -/
def canMove (g : Board) : Bool :=
  (List.range GRID_SIZE).any fun i =>
    (List.range GRID_SIZE).any fun j =>
      cell g i j == 0 ||
      (decide (j < GRID_SIZE - 1) && (cell g i j == cell g i (j + 1))) ||
      (decide (i < GRID_SIZE - 1) && (cell g i j == cell g (i + 1) j))

/-- The empty-cell scan of `addRandomTile` (push loops, row-major). -/
def emptyCellsG (g : Board) : List (Nat × Nat) :=
  (List.range GRID_SIZE).foldl
    (fun acc i =>
      (List.range GRID_SIZE).foldl
        (fun acc2 j => if cell g i j = 0 then acc2 ++ [(i, j)] else acc2)
        acc)
    []

/-- `addRandomTile` of src/App.tsx (lines 37–55). The two `Math.random()`
draws are passed in: `k` yields the uniformly chosen index
`Math.floor(Math.random() * emptyCells.length)` (embedded as
`k % length`), and `four` is the 10% event that makes the tile a 4. -/
def addRandomTile (g : Board) (k : Nat) (four : Bool) : Board :=
  let empty := emptyCellsG g
  if empty.length > 0 then
    let c := empty.getD (k % empty.length) (0, 0)
    setCell g c.1 c.2 (if four then 4 else 2)
  else
    g

/-- Total tile value of a board. -/
def gridSum (g : Board) : Nat := (g.map List.sum).sum

/-! ## Destructuring helpers for well-formed boards -/

theorem exists_four_list {α : Type} (l : List α) (h : l.length = 4) :
    ∃ a b c d, l = [a, b, c, d] := by
  match l, h with
  | [a, b, c, d], _ => exact ⟨a, b, c, d, rfl⟩

theorem WF_destruct (g : Board) (h : WF g) :
    ∃ r0 r1 r2 r3, g = [r0, r1, r2, r3] ∧ r0.length = 4 ∧ r1.length = 4 ∧
      r2.length = 4 ∧ r3.length = 4 := by
  obtain ⟨hlen, hrow⟩ := h
  obtain ⟨r0, r1, r2, r3, rfl⟩ := exists_four_list g hlen
  exact ⟨r0, r1, r2, r3, rfl, hrow r0 (by simp), hrow r1 (by simp),
    hrow r2 (by simp), hrow r3 (by simp)⟩

/-! ## Closed forms of `moveGrid` on destructured boards -/

theorem moveGrid_left_eq (r0 r1 r2 r3 : List Nat) :
    moveGrid .left [r0, r1, r2, r3] =
      ([(slideLeft r0).1, (slideLeft r1).1, (slideLeft r2).1,
        (slideLeft r3).1],
       (slideLeft r0).2 + (slideLeft r1).2 + (slideLeft r2).2 +
        (slideLeft r3).2,
       (r0 != (slideLeft r0).1) || (r1 != (slideLeft r1).1) ||
        (r2 != (slideLeft r2).1) || (r3 != (slideLeft r3).1)) := by
  simp [moveGrid, GRID_SIZE, List.range_succ, List.getD]

theorem moveGrid_right_eq (r0 r1 r2 r3 : List Nat) :
    moveGrid .right [r0, r1, r2, r3] =
      ([(slideLeft r0.reverse).1.reverse, (slideLeft r1.reverse).1.reverse,
        (slideLeft r2.reverse).1.reverse, (slideLeft r3.reverse).1.reverse],
       (slideLeft r0.reverse).2 + (slideLeft r1.reverse).2 +
        (slideLeft r2.reverse).2 + (slideLeft r3.reverse).2,
       (r0 != (slideLeft r0.reverse).1.reverse) ||
        (r1 != (slideLeft r1.reverse).1.reverse) ||
        (r2 != (slideLeft r2.reverse).1.reverse) ||
        (r3 != (slideLeft r3.reverse).1.reverse)) := by
  simp [moveGrid, GRID_SIZE, List.range_succ, List.getD]

theorem moveGrid_up_eq (a00 a01 a02 a03 a10 a11 a12 a13
    a20 a21 a22 a23 a30 a31 a32 a33 : Nat) :
    moveGrid .up [[a00, a01, a02, a03], [a10, a11, a12, a13],
        [a20, a21, a22, a23], [a30, a31, a32, a33]] =
      ([[(slideLeft [a00, a10, a20, a30]).1.getD 0 0,
         (slideLeft [a01, a11, a21, a31]).1.getD 0 0,
         (slideLeft [a02, a12, a22, a32]).1.getD 0 0,
         (slideLeft [a03, a13, a23, a33]).1.getD 0 0],
        [(slideLeft [a00, a10, a20, a30]).1.getD 1 0,
         (slideLeft [a01, a11, a21, a31]).1.getD 1 0,
         (slideLeft [a02, a12, a22, a32]).1.getD 1 0,
         (slideLeft [a03, a13, a23, a33]).1.getD 1 0],
        [(slideLeft [a00, a10, a20, a30]).1.getD 2 0,
         (slideLeft [a01, a11, a21, a31]).1.getD 2 0,
         (slideLeft [a02, a12, a22, a32]).1.getD 2 0,
         (slideLeft [a03, a13, a23, a33]).1.getD 2 0],
        [(slideLeft [a00, a10, a20, a30]).1.getD 3 0,
         (slideLeft [a01, a11, a21, a31]).1.getD 3 0,
         (slideLeft [a02, a12, a22, a32]).1.getD 3 0,
         (slideLeft [a03, a13, a23, a33]).1.getD 3 0]],
       (slideLeft [a00, a10, a20, a30]).2 + (slideLeft [a01, a11, a21, a31]).2 +
        (slideLeft [a02, a12, a22, a32]).2 + (slideLeft [a03, a13, a23, a33]).2,
       ([a00, a10, a20, a30] != (slideLeft [a00, a10, a20, a30]).1) ||
        ([a01, a11, a21, a31] != (slideLeft [a01, a11, a21, a31]).1) ||
        ([a02, a12, a22, a32] != (slideLeft [a02, a12, a22, a32]).1) ||
        ([a03, a13, a23, a33] != (slideLeft [a03, a13, a23, a33]).1)) := by
  simp [moveGrid, getCol, setCol, cell, GRID_SIZE, List.range_succ,
    List.getD, List.set]

theorem moveGrid_down_eq (a00 a01 a02 a03 a10 a11 a12 a13
    a20 a21 a22 a23 a30 a31 a32 a33 : Nat) :
    moveGrid .down [[a00, a01, a02, a03], [a10, a11, a12, a13],
        [a20, a21, a22, a23], [a30, a31, a32, a33]] =
      ([[(slideLeft [a30, a20, a10, a00]).1.reverse.getD 0 0,
         (slideLeft [a31, a21, a11, a01]).1.reverse.getD 0 0,
         (slideLeft [a32, a22, a12, a02]).1.reverse.getD 0 0,
         (slideLeft [a33, a23, a13, a03]).1.reverse.getD 0 0],
        [(slideLeft [a30, a20, a10, a00]).1.reverse.getD 1 0,
         (slideLeft [a31, a21, a11, a01]).1.reverse.getD 1 0,
         (slideLeft [a32, a22, a12, a02]).1.reverse.getD 1 0,
         (slideLeft [a33, a23, a13, a03]).1.reverse.getD 1 0],
        [(slideLeft [a30, a20, a10, a00]).1.reverse.getD 2 0,
         (slideLeft [a31, a21, a11, a01]).1.reverse.getD 2 0,
         (slideLeft [a32, a22, a12, a02]).1.reverse.getD 2 0,
         (slideLeft [a33, a23, a13, a03]).1.reverse.getD 2 0],
        [(slideLeft [a30, a20, a10, a00]).1.reverse.getD 3 0,
         (slideLeft [a31, a21, a11, a01]).1.reverse.getD 3 0,
         (slideLeft [a32, a22, a12, a02]).1.reverse.getD 3 0,
         (slideLeft [a33, a23, a13, a03]).1.reverse.getD 3 0]],
       (slideLeft [a30, a20, a10, a00]).2 + (slideLeft [a31, a21, a11, a01]).2 +
        (slideLeft [a32, a22, a12, a02]).2 + (slideLeft [a33, a23, a13, a03]).2,
       ([a00, a10, a20, a30] != (slideLeft [a30, a20, a10, a00]).1.reverse) ||
        ([a01, a11, a21, a31] != (slideLeft [a31, a21, a11, a01]).1.reverse) ||
        ([a02, a12, a22, a32] != (slideLeft [a32, a22, a12, a02]).1.reverse) ||
        ([a03, a13, a23, a33] != (slideLeft [a33, a23, a13, a03]).1.reverse)) := by
  simp [moveGrid, getCol, setCol, cell, GRID_SIZE, List.range_succ,
    List.getD, List.set]

/-- The nonzero tiles that survive the slide are exactly the merge scan's
output (the padding zeros disappear, the merged tiles are all nonzero). -/
theorem slideLeft_filter (row : List Nat) :
    (slideLeft row).1.filter (fun v => v != 0) =
      (mergeSpec (row.filter (fun v => v != 0))).1 := by
  rw [slideLeft_fst, List.filter_append,
    filter_bne_of_ne_zero _ (mergeSpec_ne_zero _ (filter_bne_mem_ne_zero row)),
    List.filter_replicate]
  simp

/-- Number of merges a slide performs on a line: nonzero tiles before
minus nonzero tiles after (each merge consumes exactly one tile). -/
def mergeCount (row : List Nat) : Nat :=
  (row.filter (fun v => v != 0)).length -
    ((slideLeft row).1.filter (fun v => v != 0)).length

theorem mergeCount_eq (row : List Nat) :
    mergeCount row =
      (row.filter (fun v => v != 0)).length -
        (mergeSpec (row.filter (fun v => v != 0))).1.length := by
  rw [mergeCount, slideLeft_filter]

/-! ## The tile-list model of src/unnamed/part_000 -/

/-- A tile of src/unnamed/part_000 (`{id, value, row, col, isNew?,
isMerged?}`). The string `id` and the animation flags `isNew`/`isMerged`
carry no game logic and are not modelled. Positions are `Int`, being JS
numbers that the move loop offsets by a signed step. -/
structure Tile where
  value : Nat
  row : Int
  col : Int
deriving DecidableEq, Repr

/-- The body of the `forEach` in `tilesToGrid` (src/unnamed/part_000,
line 69–73): paint one tile onto the grid when its cell is in range. -/
def applyTile (g : Board) (t : Tile) : Board :=
  if 0 ≤ t.row ∧ t.row < (GRID_SIZE : Int) ∧ 0 ≤ t.col ∧
      t.col < (GRID_SIZE : Int) then
    g.set t.row.toNat ((g.getD t.row.toNat []).set t.col.toNat t.value)
  else g

/-- The all-zero starting grid of `tilesToGrid`. -/
def emptyGridB : Board := List.replicate GRID_SIZE (List.replicate GRID_SIZE 0)

/-- `tilesToGrid` of src/unnamed/part_000 (lines 67–75): paint each
in-range tile onto a zero grid. -/
def tilesToGrid (ts : List Tile) : Board := ts.foldl applyTile emptyGridB

/-- `getEmptyCells` of src/unnamed/part_000 (lines 78–89): scan
`tilesToGrid` with the same row-major push loop as src/App.tsx. -/
def getEmptyCells (ts : List Tile) : List (Nat × Nat) :=
  emptyCellsG (tilesToGrid ts)

/-- `addRandomTile` of src/unnamed/part_000 (lines 92–106); random draws
passed in as for the grid version. The fresh `id` is not modelled. -/
def addRandomTileT (ts : List Tile) (k : Nat) (four : Bool) : List Tile :=
  let empty := getEmptyCells ts
  if empty.length = 0 then ts
  else
    let c := empty.getD (k % empty.length) (0, 0)
    ts ++ [⟨if four then 4 else 2, c.1, c.2⟩]

/-- `canMove` of src/unnamed/part_000 (lines 129–146): an empty-cell scan
followed by an equal-neighbour scan on `tilesToGrid`. -/
def canMoveT (ts : List Tile) : Bool :=
  let grid := tilesToGrid ts
  ((List.range GRID_SIZE).any fun i =>
    (List.range GRID_SIZE).any fun j => cell grid i j == 0) ||
  ((List.range GRID_SIZE).any fun i =>
    (List.range GRID_SIZE).any fun j =>
      (decide (j < GRID_SIZE - 1) && (cell grid i j == cell grid i (j + 1))) ||
      (decide (i < GRID_SIZE - 1) && (cell grid i j == cell grid (i + 1) j)))

/-- The sort key compared by the sort callback in `move` (lines 168–172):
column for horizontal moves, row for vertical ones. -/
def tileKey (isH : Bool) (t : Tile) : Int := if isH then t.col else t.row

/-- Insertion step of the model of `line.sort(comparator)`. -/
def insertTile (le : Tile → Tile → Bool) (t : Tile) : List Tile → List Tile
  | [] => [t]
  | u :: us => if le t u then t :: u :: us else u :: insertTile le t us

/-- Model of `line.sort(comparator)` as insertion sort on the non-strict
order `comparator(a,b) ≤ 0`. The comparator is total and antisymmetric on
the distinct positions occurring in a line, so any correct sort — JS's
included — returns this unique key-ordered permutation. -/
def sortTiles (le : Tile → Tile → Bool) : List Tile → List Tile
  | [] => []
  | t :: ts => insertTile le t (sortTiles le ts)

/-- The per-line rebuild loop of `move` in src/unnamed/part_000 (lines
179–211): walk the sorted line, merging a tile with the next one when the
values match (and skipping it via `j++`), assigning destination positions
`pos, pos + step, …`. Returns `(processedLine, points, moved)`, where
`moved` records whether some inspected tile changed cell — for a merge,
only the first tile of the pair is compared against the merged tile's
cell, exactly as in the source. -/
def procLine (isH : Bool) (i : Nat) :
    List Tile → Int → Int → List Tile × Nat × Bool
  | [], _, _ => ([], 0, false)
  | [t], pos, _ =>
    let t' : Tile :=
      ⟨t.value, if isH then (i : Int) else pos, if isH then pos else (i : Int)⟩
    ([t'], 0, decide (t.row ≠ t'.row ∨ t.col ≠ t'.col))
  | t :: next :: rest, pos, step =>
    if t.value = next.value then
      let merged : Tile :=
        ⟨t.value * 2, if isH then (i : Int) else pos,
          if isH then pos else (i : Int)⟩
      let r := procLine isH i rest (pos + step) step
      (merged :: r.1, t.value * 2 + r.2.1,
        (decide (t.row ≠ merged.row ∨ t.col ≠ merged.col)) || r.2.2)
    else
      let t' : Tile :=
        ⟨t.value, if isH then (i : Int) else pos,
          if isH then pos else (i : Int)⟩
      let r := procLine isH i (next :: rest) (pos + step) step
      (t' :: r.1, r.2.1,
        (decide (t.row ≠ t'.row ∨ t.col ≠ t'.col)) || r.2.2)

/-- One iteration of the line loop of `move` (src/unnamed/part_000, lines
161–214): filter line `i`'s tiles, `continue` when the line is empty,
sort by travel order, rebuild with `procLine`, and accumulate the
processed tiles, points, and the moved flag. -/
def p0MoveStep (isH rev : Bool) (tiles : List Tile)
    (acc : List Tile × Nat × Bool) (i : Nat) : List Tile × Nat × Bool :=
  let line := tiles.filter fun t =>
    if isH then t.row == (i : Int) else t.col == (i : Int)
  if line.isEmpty then acc
  else
    let sorted := sortTiles
      (fun a b =>
        if rev then tileKey isH b ≤ tileKey isH a
        else tileKey isH a ≤ tileKey isH b)
      line
    let r := procLine isH i sorted
      (if rev then (GRID_SIZE : Int) - 1 else 0) (if rev then -1 else 1)
    (acc.1 ++ r.1, acc.2.1 + r.2.1, acc.2.2 || r.2.2)

/-- The pure transform of `move` in src/unnamed/part_000 (lines 149–214):
for each of the four lines, filter the line's tiles, skip empty lines
(`continue`), sort by travel order, rebuild with `procLine`. Returns
`(newTiles, totalPoints, moved)`; the source discards everything and
returns early when `moved` is false. -/
def p0Move (d : Direction) (tiles : List Tile) : List Tile × Nat × Bool :=
  let isH : Bool := d = Direction.left || d = Direction.right
  let rev : Bool := d = Direction.right || d = Direction.down
  (List.range GRID_SIZE).foldl (p0MoveStep isH rev tiles) ([], 0, false)

/-- The win test of src/unnamed/part_000 (line 225):
`finalTiles.some(t => t.value === 2048)`. -/
def winCheck (ts : List Tile) : Bool := ts.any fun t => t.value == 2048

/-- Canonical tile list of one board row: one tile per nonzero cell, in
column order (used to run the tile engine on a given board). -/
def rowTiles (i : Nat) : Nat → List Nat → List Tile
  | _, [] => []
  | j, v :: r =>
    if v ≠ 0 then ⟨v, i, j⟩ :: rowTiles i (j + 1) r else rowTiles i (j + 1) r

def gridRowsToTiles : Nat → List (List Nat) → List Tile
  | _, [] => []
  | i, r :: g => rowTiles i 0 r ++ gridRowsToTiles (i + 1) g

/-- Canonical tile list of a board, row-major. -/
def gridToTiles (g : Board) : List Tile := gridRowsToTiles 0 g

/-! ## The caller-level state updates around a move -/

/-- UI game state of src/App.tsx (`grid`, `score`, `gameOver`; the best
score and its store are I/O glue outside the engine). -/
structure AppState where
  grid : Board
  score : Nat
  gameOver : Bool
deriving DecidableEq

/-- The `move` callback of src/App.tsx (lines 88–187) as one state
transition: bail out on `gameOver`, run the pure transform, and only when
`moved` is true spawn a tile, add the points, and re-derive `gameOver`.
`k`/`four` are the spawn's random draws. -/
def appStep (d : Direction) (k : Nat) (four : Bool) (s : AppState) : AppState :=
  if s.gameOver then s
  else
    let r := moveGrid d s.grid
    if r.2.2 then
      let g2 := addRandomTile r.1 k four
      { grid := g2, score := s.score + r.2.1,
        gameOver := if canMove g2 then s.gameOver else true }
    else s

/-- UI game state of src/unnamed/part_000 (`tiles`, `score`, `gameOver`,
`won`; `isAnimating` is a presentation debounce with no engine content). -/
structure P0State where
  tiles : List Tile
  score : Nat
  gameOver : Bool
  won : Bool
deriving DecidableEq

/-- The `move` callback of src/unnamed/part_000 (lines 149–252) as one
state transition: bail out on `gameOver`, run the pure transform, return
unchanged when `moved` is false, otherwise spawn, latch `won`
(`finalTiles.some(v === 2048) && !won`), add points and re-derive
`gameOver`. -/
def p0Step (d : Direction) (k : Nat) (four : Bool) (s : P0State) : P0State :=
  if s.gameOver then s
  else
    let r := p0Move d s.tiles
    if r.2.2 then
      let finalTiles := addRandomTileT r.1 k four
      { tiles := finalTiles,
        score := s.score + r.2.1,
        won := s.won || winCheck finalTiles,
        gameOver := if canMoveT finalTiles then s.gameOver else true }
    else s

/-! ## Claims -/

/-- C1 (code bug in src/unnamed/part_000): on the board whose first row is
`[2,2,0,0]`, moving left merges the two tiles — the pre-spawn board
`[4,0,0,0],…` differs cell-wise from the input board — yet `move` reports
`moved = false` (and therefore discards the move): the merged tile keeps
the first source tile's cell, and the per-tile displacement check never
looks at the vanished second tile. The spec requires `moved = true`
exactly when the board changed. src/App.tsx agrees with the spec here. -/
theorem C1_moved_flag_code_bug :
    (p0Move .left
      (gridToTiles [[2, 2, 0, 0], [0, 0, 0, 0], [0, 0, 0, 0], [0, 0, 0, 0]])).2.2
        = false ∧
    tilesToGrid (p0Move .left
      (gridToTiles [[2, 2, 0, 0], [0, 0, 0, 0], [0, 0, 0, 0], [0, 0, 0, 0]])).1
      ≠ [[2, 2, 0, 0], [0, 0, 0, 0], [0, 0, 0, 0], [0, 0, 0, 0]] ∧
    (moveGrid .left [[2, 2, 0, 0], [0, 0, 0, 0], [0, 0, 0, 0], [0, 0, 0, 0]]).2.2
      = true := by
  refine ⟨by decide, by decide, ?_⟩
  rw [moveGrid_left_eq]
  simp [slideLeft_eq]
  decide

/-- C2: for every 4×4 board and direction, the pre-spawn board produced by
the slide/merge transform has the same total tile value as the input
board: merging replaces two tiles of value V by one tile 2V, so
`pointsGained` is a side record, not an addition to the total. -/
theorem C2_move_preserves_total (g : Board) (d : Direction) (h : WF g) :
    gridSum (moveGrid d g).1 = gridSum g := by
  obtain ⟨r0, r1, r2, r3, rfl, h0, h1, h2, h3⟩ := WF_destruct g h
  cases d with
  | left =>
    rw [moveGrid_left_eq]
    simp [gridSum, slideLeft_sum]
  | right =>
    rw [moveGrid_right_eq]
    simp [gridSum, List.sum_reverse, slideLeft_sum]
  | up =>
    obtain ⟨a00, a01, a02, a03, rfl⟩ := exists_four_list r0 h0
    obtain ⟨a10, a11, a12, a13, rfl⟩ := exists_four_list r1 h1
    obtain ⟨a20, a21, a22, a23, rfl⟩ := exists_four_list r2 h2
    obtain ⟨a30, a31, a32, a33, rfl⟩ := exists_four_list r3 h3
    rw [moveGrid_up_eq]
    obtain ⟨x0, x1, x2, x3, hx⟩ :=
      exists_four_list _ (slideLeft_length [a00, a10, a20, a30] (by norm_num [GRID_SIZE]))
    obtain ⟨y0, y1, y2, y3, hy⟩ :=
      exists_four_list _ (slideLeft_length [a01, a11, a21, a31] (by norm_num [GRID_SIZE]))
    obtain ⟨z0, z1, z2, z3, hz⟩ :=
      exists_four_list _ (slideLeft_length [a02, a12, a22, a32] (by norm_num [GRID_SIZE]))
    obtain ⟨w0, w1, w2, w3, hw⟩ :=
      exists_four_list _ (slideLeft_length [a03, a13, a23, a33] (by norm_num [GRID_SIZE]))
    have sx := slideLeft_sum [a00, a10, a20, a30]
    have sy := slideLeft_sum [a01, a11, a21, a31]
    have sz := slideLeft_sum [a02, a12, a22, a32]
    have sw := slideLeft_sum [a03, a13, a23, a33]
    rw [hx] at sx
    rw [hy] at sy
    rw [hz] at sz
    rw [hw] at sw
    rw [hx, hy, hz, hw]
    simp only [List.sum_cons, List.sum_nil] at sx sy sz sw
    simp [gridSum, List.getD]
    omega
  | down =>
    obtain ⟨a00, a01, a02, a03, rfl⟩ := exists_four_list r0 h0
    obtain ⟨a10, a11, a12, a13, rfl⟩ := exists_four_list r1 h1
    obtain ⟨a20, a21, a22, a23, rfl⟩ := exists_four_list r2 h2
    obtain ⟨a30, a31, a32, a33, rfl⟩ := exists_four_list r3 h3
    rw [moveGrid_down_eq]
    obtain ⟨x0, x1, x2, x3, hx⟩ :=
      exists_four_list _ (slideLeft_length [a30, a20, a10, a00] (by norm_num [GRID_SIZE]))
    obtain ⟨y0, y1, y2, y3, hy⟩ :=
      exists_four_list _ (slideLeft_length [a31, a21, a11, a01] (by norm_num [GRID_SIZE]))
    obtain ⟨z0, z1, z2, z3, hz⟩ :=
      exists_four_list _ (slideLeft_length [a32, a22, a12, a02] (by norm_num [GRID_SIZE]))
    obtain ⟨w0, w1, w2, w3, hw⟩ :=
      exists_four_list _ (slideLeft_length [a33, a23, a13, a03] (by norm_num [GRID_SIZE]))
    have sx := slideLeft_sum [a30, a20, a10, a00]
    have sy := slideLeft_sum [a31, a21, a11, a01]
    have sz := slideLeft_sum [a32, a22, a12, a02]
    have sw := slideLeft_sum [a33, a23, a13, a03]
    rw [hx] at sx
    rw [hy] at sy
    rw [hz] at sz
    rw [hw] at sw
    rw [hx, hy, hz, hw]
    simp only [List.sum_cons, List.sum_nil] at sx sy sz sw
    simp [gridSum, List.getD]
    omega

/-- Witness for C2 at a concrete board and direction. -/
theorem C2_witness :
    WF [[2, 2, 4, 0], [0, 8, 8, 2], [0, 0, 2, 2], [4, 0, 0, 4]] ∧
    gridSum (moveGrid .up
      [[2, 2, 4, 0], [0, 8, 8, 2], [0, 0, 2, 2], [4, 0, 0, 4]]).1 =
      gridSum [[2, 2, 4, 0], [0, 8, 8, 2], [0, 0, 2, 2], [4, 0, 0, 4]] :=
  ⟨by decide,
   C2_move_preserves_total
     [[2, 2, 4, 0], [0, 8, 8, 2], [0, 0, 2, 2], [4, 0, 0, 4]] .up (by decide)⟩

/-- C3 counterexample: the line `[2,2,2,2]` is a single contiguous run of
four equal tiles, yet the slide performs two merges (points 8), not
exactly one merge for the run. -/
theorem C3_run_of_four_counterexample :
    mergeCount [2, 2, 2, 2] = 2 ∧ mergeCount [2, 2, 2, 2] ≠ 1 ∧
    slideLeft [2, 2, 2, 2] = ([4, 4, 0, 0], 8) := by
  refine ⟨?_, ?_, ?_⟩ <;>
    simp only [mergeCount, slideLeft_eq] <;> decide

/-- C3 amended: on any 4-cell line holding exactly three equal nonzero
values, exactly one merge occurs and it scores twice that value —
`[2,2,2,0]` slid left gives `[4,2,0,0]` with 4 points. (A line of four
equal values is still one contiguous run but merges twice.) -/
theorem C3_one_merge_amended :
    (∀ (row : List Nat) (v : Nat), row.length = 4 → v ≠ 0 →
      row.count v = 3 → mergeCount row = 1 ∧ (slideLeft row).2 = 2 * v) ∧
    slideLeft [2, 2, 2, 0] = ([4, 2, 0, 0], 4) := by
  constructor
  · intro row v hlen hv hcount
    have hvb : (v != 0) = true := by simpa using hv
    obtain ⟨a, b, c, d, rfl⟩ := exists_four_list row hlen
    have hshape : (a = v ∧ b = v ∧ c = v ∧ d ≠ v) ∨
        (a = v ∧ b = v ∧ c ≠ v ∧ d = v) ∨
        (a = v ∧ b ≠ v ∧ c = v ∧ d = v) ∨
        (a ≠ v ∧ b = v ∧ c = v ∧ d = v) := by
      by_cases ha : a = v <;> by_cases hb : b = v <;> by_cases hc : c = v <;>
        by_cases hd : d = v <;>
        simp [List.count_cons, ha, hb, hc, hd] at hcount <;> tauto
    rw [mergeCount_eq, slideLeft_snd]
    rcases hshape with ⟨ha, hb, hc, hd⟩ | ⟨ha, hb, hc, hd⟩ |
      ⟨ha, hb, hc, hd⟩ | ⟨ha, hb, hc, hd⟩
    · subst ha
      subst hb
      subst hc
      by_cases hd0 : d = 0
      · subst hd0
        simp [List.filter_cons, hvb, mergeSpec_cons_cons, mergeSpec_single]
      · have hdb : (d != 0) = true := by simpa using hd0
        simp [List.filter_cons, hvb, hdb, hd, Ne.symm hd, mergeSpec_cons_cons,
          mergeSpec_single, mergeSpec_nil]
    · subst ha
      subst hb
      subst hd
      by_cases hc0 : c = 0
      · subst hc0
        simp [List.filter_cons, hvb, mergeSpec_cons_cons, mergeSpec_single]
      · have hcb : (c != 0) = true := by simpa using hc0
        simp [List.filter_cons, hvb, hcb, hc, Ne.symm hc, mergeSpec_cons_cons,
          mergeSpec_single, mergeSpec_nil]
    · subst ha
      subst hc
      subst hd
      by_cases hb0 : b = 0
      · subst hb0
        simp [List.filter_cons, hvb, mergeSpec_cons_cons, mergeSpec_single]
      · have hbb : (b != 0) = true := by simpa using hb0
        simp [List.filter_cons, hvb, hbb, hb, Ne.symm hb, mergeSpec_cons_cons,
          mergeSpec_single, mergeSpec_nil]
    · subst hb
      subst hc
      subst hd
      by_cases ha0 : a = 0
      · subst ha0
        simp [List.filter_cons, hvb, mergeSpec_cons_cons, mergeSpec_single]
      · have hab : (a != 0) = true := by simpa using ha0
        simp [List.filter_cons, hvb, hab, ha, Ne.symm ha, mergeSpec_cons_cons,
          mergeSpec_single, mergeSpec_nil]
  · simp only [slideLeft_eq]
    decide

/-- Witness for the amended C3 at the concrete line `[2,2,2,0]`. -/
theorem C3_witness :
    mergeCount [2, 2, 2, 0] = 1 ∧ (slideLeft [2, 2, 2, 0]).2 = 2 * 2 :=
  C3_one_merge_amended.1 [2, 2, 2, 0] 2 (by decide) (by decide) (by decide)

/-- C4: the merge loop of `slideLeft` implements exactly the spec's
front-to-back scan that replaces an equal adjacent pair by a tile of
double value and advances past both source tiles — a tile produced by a
merge is never merged again in the same pass. In particular row
`[0,2,2,4]` slides left to `[4,4,0,0]` with 4 points, not `[8,0,0,0]`. -/
theorem C4_no_chain_merge :
    (∀ arr : List Nat, mergeLoop arr 0 0 = mergeSpec arr) ∧
    slideLeft [0, 2, 2, 4] = ([4, 4, 0, 0], 4) := by
  constructor
  · intro arr
    rw [mergeLoop_spec]
    simp
  · simp only [slideLeft_eq]
    decide

/-- C5: `canMove` is true exactly when some cell is empty or some two
horizontally or vertically adjacent cells hold equal nonzero values; the
fully populated alternating checkerboard has neither, so it yields
`canMove = false`. -/
theorem C5_canMove_characterization :
    (∀ g : Board, WF g →
      (canMove g = true ↔
        (∃ i < GRID_SIZE, ∃ j < GRID_SIZE, cell g i j = 0) ∨
        (∃ i < GRID_SIZE, ∃ j < GRID_SIZE - 1,
          cell g i j ≠ 0 ∧ cell g i j = cell g i (j + 1)) ∨
        (∃ i < GRID_SIZE - 1, ∃ j < GRID_SIZE,
          cell g i j ≠ 0 ∧ cell g i j = cell g (i + 1) j))) ∧
    canMove [[2, 4, 2, 4], [4, 2, 4, 2], [2, 4, 2, 4], [4, 2, 4, 2]] = false := by
  constructor
  · intro g _hwf
    rw [canMove]
    simp only [List.any_eq_true, List.mem_range, Bool.or_eq_true,
      Bool.and_eq_true, beq_iff_eq, decide_eq_true_eq]
    constructor
    · rintro ⟨i, hi, j, hj, (h0 | ⟨hj3, he⟩) | ⟨hi3, he⟩⟩
      · exact Or.inl ⟨i, hi, j, hj, h0⟩
      · by_cases hz : cell g i j = 0
        · exact Or.inl ⟨i, hi, j, hj, hz⟩
        · exact Or.inr (Or.inl ⟨i, hi, j, hj3, hz, he⟩)
      · by_cases hz : cell g i j = 0
        · exact Or.inl ⟨i, hi, j, hj, hz⟩
        · exact Or.inr (Or.inr ⟨i, hi3, j, hj, hz, he⟩)
    · rintro (⟨i, hi, j, hj, h0⟩ | ⟨i, hi, j, hj3, _, he⟩ | ⟨i, hi3, j, hj, _, he⟩)
      · exact ⟨i, hi, j, hj, Or.inl (Or.inl h0)⟩
      · exact ⟨i, hi, j, by omega, Or.inl (Or.inr ⟨hj3, he⟩)⟩
      · exact ⟨i, by omega, j, hj, Or.inr ⟨hi3, he⟩⟩
  · decide

/-- Witness for C5: the characterization applied to the checkerboard shows
it has no empty cell and no equal adjacent pair. -/
theorem C5_witness :
    WF [[2, 4, 2, 4], [4, 2, 4, 2], [2, 4, 2, 4], [4, 2, 4, 2]] ∧
    ¬ ((∃ i < GRID_SIZE, ∃ j < GRID_SIZE,
          cell [[2, 4, 2, 4], [4, 2, 4, 2], [2, 4, 2, 4], [4, 2, 4, 2]] i j = 0) ∨
        (∃ i < GRID_SIZE, ∃ j < GRID_SIZE - 1,
          cell [[2, 4, 2, 4], [4, 2, 4, 2], [2, 4, 2, 4], [4, 2, 4, 2]] i j ≠ 0 ∧
          cell [[2, 4, 2, 4], [4, 2, 4, 2], [2, 4, 2, 4], [4, 2, 4, 2]] i j =
            cell [[2, 4, 2, 4], [4, 2, 4, 2], [2, 4, 2, 4], [4, 2, 4, 2]] i (j + 1)) ∨
        (∃ i < GRID_SIZE - 1, ∃ j < GRID_SIZE,
          cell [[2, 4, 2, 4], [4, 2, 4, 2], [2, 4, 2, 4], [4, 2, 4, 2]] i j ≠ 0 ∧
          cell [[2, 4, 2, 4], [4, 2, 4, 2], [2, 4, 2, 4], [4, 2, 4, 2]] i j =
            cell [[2, 4, 2, 4], [4, 2, 4, 2], [2, 4, 2, 4], [4, 2, 4, 2]] (i + 1) j)) := by
  refine ⟨by decide, ?_⟩
  have h := (C5_canMove_characterization.1
    [[2, 4, 2, 4], [4, 2, 4, 2], [2, 4, 2, 4], [4, 2, 4, 2]] (by decide))
  rw [C5_canMove_characterization.2] at h
  intro hcontra
  exact Bool.false_ne_true (h.mpr hcontra)

/-! ## Values of canonical tile lists -/

theorem rowTiles_map_value (i : Nat) :
    ∀ (j0 : Nat) (r : List Nat),
      (rowTiles i j0 r).map Tile.value = r.filter (fun v => v != 0)
  | _, [] => rfl
  | j0, v :: r => by
    by_cases hv : v = 0
    · subst hv
      simp [rowTiles, List.filter_cons, rowTiles_map_value i (j0 + 1) r]
    · have hb : (v != 0) = true := by simpa using hv
      simp [rowTiles, hv, List.filter_cons, hb,
        rowTiles_map_value i (j0 + 1) r]

theorem gridToTiles_four (r0 r1 r2 r3 : List Nat) :
    gridToTiles [r0, r1, r2, r3] =
      rowTiles 0 0 r0 ++ rowTiles 1 0 r1 ++ rowTiles 2 0 r2 ++
        rowTiles 3 0 r3 := by
  simp [gridToTiles, gridRowsToTiles]

theorem mem_iff_getD4 (l : List Nat) (h : l.length = 4) (w : Nat) :
    w ∈ l ↔ ∃ j < 4, l.getD j 0 = w := by
  obtain ⟨a, b, c, d, rfl⟩ := exists_four_list l h
  constructor
  · intro hw
    rcases List.mem_cons.mp hw with rfl | hw
    · exact ⟨0, by omega, rfl⟩
    rcases List.mem_cons.mp hw with rfl | hw
    · exact ⟨1, by omega, rfl⟩
    rcases List.mem_cons.mp hw with rfl | hw
    · exact ⟨2, by omega, rfl⟩
    rcases List.mem_cons.mp hw with rfl | hw
    · exact ⟨3, by omega, rfl⟩
    · simp at hw
  · rintro ⟨j, hj, hw⟩
    interval_cases j <;> simp [List.getD] at hw <;> simp [hw]

/-- C6 counterexample: on the board whose only tile is a 4096, some cell's
value is ≥ 2048, yet the win test `some(t => t.value === 2048)` is false —
so "true iff any cell ≥ target" fails on the code. -/
theorem C6_geq_counterexample :
    winCheck (gridToTiles
      [[4096, 0, 0, 0], [0, 0, 0, 0], [0, 0, 0, 0], [0, 0, 0, 0]]) = false ∧
    (∃ i < GRID_SIZE, ∃ j < GRID_SIZE,
      2048 ≤ cell [[4096, 0, 0, 0], [0, 0, 0, 0], [0, 0, 0, 0], [0, 0, 0, 0]] i j) := by
  decide

/-- C6 amended: the win test is an equality test — true iff some cell's
value is exactly 2048; a 2048 anywhere satisfies it regardless of the
other cells, but a board whose largest cell is 4096 without a 2048 does
not. -/
theorem rowTiles_any_value (i : Nat) (w : Nat) (hw : w ≠ 0) :
    ∀ (j0 : Nat) (r : List Nat),
      (((rowTiles i j0 r).any fun t => t.value == w) = true ↔ w ∈ r)
  | _, [] => by simp [rowTiles]
  | j0, v :: rr => by
    by_cases hv : v = 0
    · subst hv
      rw [rowTiles, if_neg (by simp)]
      rw [rowTiles_any_value i w hw (j0 + 1) rr]
      simp only [List.mem_cons]
      constructor
      · exact Or.inr
      · rintro (h0 | h)
        · exact absurd h0 hw
        · exact h
    · rw [rowTiles, if_pos hv]
      simp only [List.any_cons, Bool.or_eq_true, beq_iff_eq,
        rowTiles_any_value i w hw (j0 + 1) rr, List.mem_cons]
      tauto

theorem C6_win_equality_amended (g : Board) (h : WF g) :
    winCheck (gridToTiles g) = true ↔
      ∃ i < GRID_SIZE, ∃ j < GRID_SIZE, cell g i j = 2048 := by
  obtain ⟨r0, r1, r2, r3, rfl, h0, h1, h2, h3⟩ := WF_destruct g h
  simp only [show GRID_SIZE = 4 from rfl]
  have hmem : winCheck (gridToTiles [r0, r1, r2, r3]) = true ↔
      2048 ∈ r0 ∨ 2048 ∈ r1 ∨ 2048 ∈ r2 ∨ 2048 ∈ r3 := by
    rw [gridToTiles_four, winCheck]
    simp only [List.any_append, Bool.or_eq_true]
    rw [rowTiles_any_value 0 2048 (by norm_num) 0 r0,
      rowTiles_any_value 1 2048 (by norm_num) 0 r1,
      rowTiles_any_value 2 2048 (by norm_num) 0 r2,
      rowTiles_any_value 3 2048 (by norm_num) 0 r3]
    tauto
  rw [hmem]
  constructor
  · rintro (h | h | h | h)
    · obtain ⟨j, hj, hg⟩ := (mem_iff_getD4 r0 h0 2048).1 h
      exact ⟨0, by omega, j, hj, hg⟩
    · obtain ⟨j, hj, hg⟩ := (mem_iff_getD4 r1 h1 2048).1 h
      exact ⟨1, by omega, j, hj, hg⟩
    · obtain ⟨j, hj, hg⟩ := (mem_iff_getD4 r2 h2 2048).1 h
      exact ⟨2, by omega, j, hj, hg⟩
    · obtain ⟨j, hj, hg⟩ := (mem_iff_getD4 r3 h3 2048).1 h
      exact ⟨3, by omega, j, hj, hg⟩
  · rintro ⟨i, hi, j, hj, hc⟩
    interval_cases i
    · exact Or.inl ((mem_iff_getD4 r0 h0 2048).2 ⟨j, hj, hc⟩)
    · exact Or.inr (Or.inl ((mem_iff_getD4 r1 h1 2048).2 ⟨j, hj, hc⟩))
    · exact Or.inr (Or.inr (Or.inl ((mem_iff_getD4 r2 h2 2048).2 ⟨j, hj, hc⟩)))
    · exact Or.inr (Or.inr (Or.inr ((mem_iff_getD4 r3 h3 2048).2 ⟨j, hj, hc⟩)))

/-- Witness for the amended C6 at a board holding one 2048 among other
tiles. -/
theorem C6_witness :
    WF [[2, 4, 8, 16], [0, 0, 0, 4], [4, 2048, 2, 2], [8, 8, 0, 0]] ∧
    (winCheck (gridToTiles
        [[2, 4, 8, 16], [0, 0, 0, 4], [4, 2048, 2, 2], [8, 8, 0, 0]]) = true ↔
      ∃ i < GRID_SIZE, ∃ j < GRID_SIZE,
        cell [[2, 4, 8, 16], [0, 0, 0, 4], [4, 2048, 2, 2], [8, 8, 0, 0]] i j
          = 2048) :=
  ⟨by decide, C6_win_equality_amended
    [[2, 4, 8, 16], [0, 0, 0, 4], [4, 2048, 2, 2], [8, 8, 0, 0]] (by decide)⟩

/-! ## `moved = false` means nothing happened (src/App.tsx) -/

theorem moveGrid_unmoved (g : Board) (d : Direction) (h : WF g)
    (hm : (moveGrid d g).2.2 = false) :
    (moveGrid d g).1 = g ∧ (moveGrid d g).2.1 = 0 := by
  obtain ⟨r0, r1, r2, r3, rfl, h0, h1, h2, h3⟩ := WF_destruct g h
  cases d with
  | left =>
    rw [moveGrid_left_eq] at hm ⊢
    simp only [Bool.or_eq_false_iff, bne_eq_false_iff_eq] at hm
    obtain ⟨⟨⟨e0, e1⟩, e2⟩, e3⟩ := hm
    rw [← e0, ← e1, ← e2, ← e3]
    refine ⟨rfl, ?_⟩
    rw [slideLeft_eq_self r0 e0.symm, slideLeft_eq_self r1 e1.symm,
      slideLeft_eq_self r2 e2.symm, slideLeft_eq_self r3 e3.symm]
  | right =>
    rw [moveGrid_right_eq] at hm ⊢
    simp only [Bool.or_eq_false_iff, bne_eq_false_iff_eq] at hm
    obtain ⟨⟨⟨e0, e1⟩, e2⟩, e3⟩ := hm
    have f0 : (slideLeft r0.reverse).1 = r0.reverse := by
      have := congrArg List.reverse e0
      simpa using this.symm
    have f1 : (slideLeft r1.reverse).1 = r1.reverse := by
      have := congrArg List.reverse e1
      simpa using this.symm
    have f2 : (slideLeft r2.reverse).1 = r2.reverse := by
      have := congrArg List.reverse e2
      simpa using this.symm
    have f3 : (slideLeft r3.reverse).1 = r3.reverse := by
      have := congrArg List.reverse e3
      simpa using this.symm
    rw [← e0, ← e1, ← e2, ← e3]
    refine ⟨rfl, ?_⟩
    rw [slideLeft_eq_self _ f0, slideLeft_eq_self _ f1,
      slideLeft_eq_self _ f2, slideLeft_eq_self _ f3]
  | up =>
    obtain ⟨a00, a01, a02, a03, rfl⟩ := exists_four_list r0 h0
    obtain ⟨a10, a11, a12, a13, rfl⟩ := exists_four_list r1 h1
    obtain ⟨a20, a21, a22, a23, rfl⟩ := exists_four_list r2 h2
    obtain ⟨a30, a31, a32, a33, rfl⟩ := exists_four_list r3 h3
    rw [moveGrid_up_eq] at hm ⊢
    simp only [Bool.or_eq_false_iff, bne_eq_false_iff_eq] at hm
    obtain ⟨⟨⟨e0, e1⟩, e2⟩, e3⟩ := hm
    rw [← e0, ← e1, ← e2, ← e3]
    refine ⟨by simp [List.getD], ?_⟩
    rw [slideLeft_eq_self _ e0.symm, slideLeft_eq_self _ e1.symm,
      slideLeft_eq_self _ e2.symm, slideLeft_eq_self _ e3.symm]
  | down =>
    obtain ⟨a00, a01, a02, a03, rfl⟩ := exists_four_list r0 h0
    obtain ⟨a10, a11, a12, a13, rfl⟩ := exists_four_list r1 h1
    obtain ⟨a20, a21, a22, a23, rfl⟩ := exists_four_list r2 h2
    obtain ⟨a30, a31, a32, a33, rfl⟩ := exists_four_list r3 h3
    rw [moveGrid_down_eq] at hm ⊢
    simp only [Bool.or_eq_false_iff, bne_eq_false_iff_eq] at hm
    obtain ⟨⟨⟨e0, e1⟩, e2⟩, e3⟩ := hm
    have f0 : (slideLeft [a30, a20, a10, a00]).1 = [a30, a20, a10, a00] := by
      have := congrArg List.reverse e0
      simpa using this.symm
    have f1 : (slideLeft [a31, a21, a11, a01]).1 = [a31, a21, a11, a01] := by
      have := congrArg List.reverse e1
      simpa using this.symm
    have f2 : (slideLeft [a32, a22, a12, a02]).1 = [a32, a22, a12, a02] := by
      have := congrArg List.reverse e2
      simpa using this.symm
    have f3 : (slideLeft [a33, a23, a13, a03]).1 = [a33, a23, a13, a03] := by
      have := congrArg List.reverse e3
      simpa using this.symm
    constructor
    · rw [f0, f1, f2, f3]
      simp [List.getD]
    · rw [slideLeft_eq_self _ f0, slideLeft_eq_self _ f1,
        slideLeft_eq_self _ f2, slideLeft_eq_self _ f3]

/-- C7: a move reported as `moved = false` is a safe no-op in both
engines: in src/App.tsx the computed board equals the input board and the
points are 0, and the state update skips the spawn and leaves grid, score
and gameOver untouched; in src/unnamed/part_000 the early
`if (!moved) return` leaves the whole state (tiles, score, gameOver, won)
untouched and spawns nothing. -/
theorem C7_noop_on_unmoved :
    (∀ (s : AppState) (d : Direction) (k : Nat) (four : Bool), WF s.grid →
      (moveGrid d s.grid).2.2 = false →
      appStep d k four s = s ∧ (moveGrid d s.grid).1 = s.grid ∧
        (moveGrid d s.grid).2.1 = 0) ∧
    (∀ (s : P0State) (d : Direction) (k : Nat) (four : Bool),
      (p0Move d s.tiles).2.2 = false → p0Step d k four s = s) := by
  constructor
  · intro s d k four hwf hm
    refine ⟨?_, (moveGrid_unmoved _ _ hwf hm).1, (moveGrid_unmoved _ _ hwf hm).2⟩
    by_cases hgo : s.gameOver
    · simp [appStep, hgo]
    · simp [appStep, hgo, hm]
  · intro s d k four hm
    by_cases hgo : s.gameOver
    · simp [p0Step, hgo]
    · simp [p0Step, hgo, hm]

/-- Witness for C7: on the stuck checkerboard, a left move in the grid
engine and a right move in the tile engine both leave the state as is. -/
theorem C7_witness :
    appStep .left 0 false
        ⟨[[2, 4, 2, 4], [4, 2, 4, 2], [2, 4, 2, 4], [4, 2, 4, 2]], 7, false⟩ =
      ⟨[[2, 4, 2, 4], [4, 2, 4, 2], [2, 4, 2, 4], [4, 2, 4, 2]], 7, false⟩ ∧
    p0Step .right 1 true
        ⟨gridToTiles [[2, 4, 2, 4], [4, 2, 4, 2], [2, 4, 2, 4], [4, 2, 4, 2]],
          3, false, false⟩ =
      ⟨gridToTiles [[2, 4, 2, 4], [4, 2, 4, 2], [2, 4, 2, 4], [4, 2, 4, 2]],
        3, false, false⟩ := by
  constructor
  · have hm : (moveGrid .left
        [[2, 4, 2, 4], [4, 2, 4, 2], [2, 4, 2, 4], [4, 2, 4, 2]]).2.2 = false := by
      rw [moveGrid_left_eq]
      simp only [slideLeft_eq]
      decide
    exact (C7_noop_on_unmoved.1
      ⟨[[2, 4, 2, 4], [4, 2, 4, 2], [2, 4, 2, 4], [4, 2, 4, 2]], 7, false⟩
      .left 0 false (by decide) hm).1
  · exact C7_noop_on_unmoved.2
      ⟨gridToTiles [[2, 4, 2, 4], [4, 2, 4, 2], [2, 4, 2, 4], [4, 2, 4, 2]],
        3, false, false⟩
      .right 1 true (by decide)

/-! ## The spawn operation -/

theorem getD_set_ne {α : Type} {l : List α} {n m : Nat} {v d : α}
    (h : n ≠ m) : (l.set n v).getD m d = l.getD m d := by
  rw [List.getD_eq_getElem?_getD, List.getD_eq_getElem?_getD,
    List.getElem?_set_ne h]

theorem getD_set_self {α : Type} {l : List α} {n : Nat} {v d : α}
    (h : n < l.length) : (l.set n v).getD n d = v := by
  rw [List.getD_eq_getElem?_getD, List.getElem?_set_self h]
  rfl

theorem cell_setCell_self (g : Board) (i j v : Nat) (hi : i < g.length)
    (hj : j < (g.getD i []).length) :
    cell (setCell g i j v) i j = v := by
  rw [cell, setCell, getD_set_self hi]
  exact getD_set_self hj

theorem cell_setCell_ne (g : Board) (i j v i' j' : Nat)
    (h : ¬(i' = i ∧ j' = j)) :
    cell (setCell g i j v) i' j' = cell g i' j' := by
  by_cases hii : i' = i
  · subst hii
    have hjj : j ≠ j' := fun hh => h ⟨rfl, hh.symm⟩
    rw [cell, setCell, cell]
    by_cases hlt : i' < g.length
    · rw [getD_set_self hlt]
      exact getD_set_ne hjj
    · rw [List.set_eq_of_length_le (Nat.le_of_not_lt hlt)]
  · rw [cell, setCell, cell, getD_set_ne (fun hh => hii hh.symm)]

theorem foldl_push {α β : Type} (P : α → Prop) [DecidablePred P] (f : α → β) :
    ∀ (l : List α) (acc : List β),
      l.foldl (fun a x => if P x then a ++ [f x] else a) acc =
        acc ++ (l.filter fun x => decide (P x)).map f := by
  intro l
  induction l with
  | nil => simp
  | cons x t ih =>
    intro acc
    by_cases hp : P x
    · simp [List.foldl_cons, List.filter_cons, hp, ih]
    · simp [List.foldl_cons, List.filter_cons, hp, ih]

theorem emptyCellsG_eq (g : Board) :
    emptyCellsG g =
      ((([0, 1, 2, 3] : List Nat).filter fun j => decide (cell g 0 j = 0)).map
        fun j => ((0 : Nat), j)) ++
      (((([0, 1, 2, 3] : List Nat).filter fun j => decide (cell g 1 j = 0)).map
        fun j => ((1 : Nat), j)) ++
      (((([0, 1, 2, 3] : List Nat).filter fun j => decide (cell g 2 j = 0)).map
        fun j => ((2 : Nat), j)) ++
      ((([0, 1, 2, 3] : List Nat).filter fun j => decide (cell g 3 j = 0)).map
        fun j => ((3 : Nat), j)))) := by
  rw [emptyCellsG, show List.range GRID_SIZE = [0, 1, 2, 3] from rfl]
  simp only [foldl_push]
  simp only [List.foldl_cons, List.foldl_nil, List.nil_append,
    List.append_assoc]

theorem mem_emptyCellsG (g : Board) (i j : Nat) :
    (i, j) ∈ emptyCellsG g ↔
      i < GRID_SIZE ∧ j < GRID_SIZE ∧ cell g i j = 0 := by
  rw [emptyCellsG_eq]
  simp only [List.mem_append, List.mem_map, List.mem_filter,
    decide_eq_true_eq, Prod.mk.injEq, List.mem_cons, List.not_mem_nil,
    or_false, show GRID_SIZE = 4 from rfl]
  constructor
  · rintro (⟨a, ⟨ha, hc⟩, hi, rfl⟩ | ⟨a, ⟨ha, hc⟩, hi, rfl⟩ |
      ⟨a, ⟨ha, hc⟩, hi, rfl⟩ | ⟨a, ⟨ha, hc⟩, hi, rfl⟩) <;>
      subst hi <;> exact ⟨by omega, by omega, hc⟩
  · rintro ⟨hi, hj, hc⟩
    interval_cases i
    · exact Or.inl ⟨j, ⟨by omega, hc⟩, rfl, rfl⟩
    · exact Or.inr (Or.inl ⟨j, ⟨by omega, hc⟩, rfl, rfl⟩)
    · exact Or.inr (Or.inr (Or.inl ⟨j, ⟨by omega, hc⟩, rfl, rfl⟩))
    · exact Or.inr (Or.inr (Or.inr ⟨j, ⟨by omega, hc⟩, rfl, rfl⟩))

/-- C8: when the board has an empty cell, `addRandomTile` fills exactly
one previously empty cell with a 2 or a 4 and leaves every other cell
unchanged; on a full board it returns the board unchanged instead of
failing. -/
theorem C8_spawn_adds_one_tile (g : Board) (k : Nat) (four : Bool)
    (h : WF g) :
    ((∃ i0 < GRID_SIZE, ∃ j0 < GRID_SIZE, cell g i0 j0 = 0) →
      ∃ i < GRID_SIZE, ∃ j < GRID_SIZE, cell g i j = 0 ∧
        (cell (addRandomTile g k four) i j = 2 ∨
          cell (addRandomTile g k four) i j = 4) ∧
        ∀ i' < GRID_SIZE, ∀ j' < GRID_SIZE, ¬(i' = i ∧ j' = j) →
          cell (addRandomTile g k four) i' j' = cell g i' j') ∧
    ((∀ i < GRID_SIZE, ∀ j < GRID_SIZE, cell g i j ≠ 0) →
      addRandomTile g k four = g) := by
  constructor
  · rintro ⟨i0, hi0, j0, hj0, hc0⟩
    have hne : emptyCellsG g ≠ [] := by
      intro hnil
      have hm := (mem_emptyCellsG g i0 j0).2 ⟨hi0, hj0, hc0⟩
      rw [hnil] at hm
      simp at hm
    have hlen : 0 < (emptyCellsG g).length := List.length_pos.mpr hne
    have hidx : k % (emptyCellsG g).length < (emptyCellsG g).length :=
      Nat.mod_lt _ hlen
    set c : Nat × Nat :=
      (emptyCellsG g).getD (k % (emptyCellsG g).length) (0, 0) with hcdef
    have hmem : c ∈ emptyCellsG g := by
      rw [hcdef, List.getD_eq_getElem _ _ hidx]
      exact List.getElem_mem _
    have hcc : (c.1, c.2) ∈ emptyCellsG g := hmem
    obtain ⟨hci, hcj, hcz⟩ := (mem_emptyCellsG g c.1 c.2).1 hcc
    have hg4 : g.length = 4 := h.1
    have hunfold : addRandomTile g k four =
        setCell g c.1 c.2 (if four then 4 else 2) := by
      rw [addRandomTile, if_pos hlen]
    have hrow : (g.getD c.1 []).length = 4 := by
      have hlt : c.1 < g.length := by
        rw [hg4]
        simpa [GRID_SIZE] using hci
      rw [List.getD_eq_getElem _ _ hlt]
      exact h.2 _ (List.getElem_mem _)
    refine ⟨c.1, hci, c.2, hcj, hcz, ?_, ?_⟩
    · rw [hunfold, cell_setCell_self _ _ _ _
        (by rw [hg4]; simpa [GRID_SIZE] using hci)
        (by rw [hrow]; simpa [GRID_SIZE] using hcj)]
      cases four
      · simp
      · simp
    · intro i' hi' j' hj' hne'
      rw [hunfold, cell_setCell_ne _ _ _ _ _ _ hne']
  · intro hall
    have hnil : emptyCellsG g = [] := by
      rw [List.eq_nil_iff_forall_not_mem]
      rintro ⟨i, j⟩ hmem
      obtain ⟨hi, hj, hc⟩ := (mem_emptyCellsG g i j).1 hmem
      exact hall i hi j hj hc
    rw [addRandomTile, hnil]
    simp

/-- Witness for C8 at a board with one empty cell. -/
theorem C8_witness :
    ∃ i < GRID_SIZE, ∃ j < GRID_SIZE,
      cell [[2, 4, 2, 4], [4, 2, 4, 2], [2, 4, 0, 4], [4, 2, 4, 2]] i j = 0 ∧
      (cell (addRandomTile
          [[2, 4, 2, 4], [4, 2, 4, 2], [2, 4, 0, 4], [4, 2, 4, 2]] 5 false) i j
            = 2 ∨
        cell (addRandomTile
          [[2, 4, 2, 4], [4, 2, 4, 2], [2, 4, 0, 4], [4, 2, 4, 2]] 5 false) i j
            = 4) ∧
      ∀ i' < GRID_SIZE, ∀ j' < GRID_SIZE, ¬(i' = i ∧ j' = j) →
        cell (addRandomTile
          [[2, 4, 2, 4], [4, 2, 4, 2], [2, 4, 0, 4], [4, 2, 4, 2]] 5 false) i' j'
          = cell [[2, 4, 2, 4], [4, 2, 4, 2], [2, 4, 0, 4], [4, 2, 4, 2]] i' j' :=
  (C8_spawn_adds_one_tile
    [[2, 4, 2, 4], [4, 2, 4, 2], [2, 4, 0, 4], [4, 2, 4, 2]] 5 false
    (by decide)).1 (by decide)

theorem list_eq_getD4 (l : List Nat) (h : l.length = 4) :
    [l.getD 0 0, l.getD 1 0, l.getD 2 0, l.getD 3 0] = l := by
  obtain ⟨a, b, c, d, rfl⟩ := exists_four_list l h
  simp [List.getD]

/-- C9: a move toward the right edge computes, row by row, reverse → slide
left → reverse with the same point total, and a move toward the bottom
edge does the same column by column; the row `[2,0,0,2]` moved right
becomes `[0,0,0,4]` with 4 points and `moved = true`. -/
theorem C9_right_down_by_reversal :
    (∀ g : Board, WF g →
      (moveGrid .right g).1 =
          g.map (fun r => ((slideLeft r.reverse).1).reverse) ∧
        (moveGrid .right g).2.1 =
          (g.map (fun r => (slideLeft r.reverse).2)).sum ∧
        (∀ c < GRID_SIZE,
          getCol (moveGrid .down g).1 c =
            ((slideLeft (getCol g c).reverse).1).reverse) ∧
        (moveGrid .down g).2.1 =
          ((List.range GRID_SIZE).map
            (fun c => (slideLeft (getCol g c).reverse).2)).sum) ∧
    moveGrid .right [[2, 0, 0, 2], [0, 0, 0, 0], [0, 0, 0, 0], [0, 0, 0, 0]] =
      ([[0, 0, 0, 4], [0, 0, 0, 0], [0, 0, 0, 0], [0, 0, 0, 0]], 4, true) := by
  constructor
  · intro g h
    obtain ⟨r0, r1, r2, r3, rfl, h0, h1, h2, h3⟩ := WF_destruct g h
    refine ⟨?_, ?_, ?_, ?_⟩
    · rw [moveGrid_right_eq]
      simp
    · rw [moveGrid_right_eq]
      simp only [List.map_cons, List.map_nil, List.sum_cons, List.sum_nil]
      omega
    · obtain ⟨a00, a01, a02, a03, rfl⟩ := exists_four_list r0 h0
      obtain ⟨a10, a11, a12, a13, rfl⟩ := exists_four_list r1 h1
      obtain ⟨a20, a21, a22, a23, rfl⟩ := exists_four_list r2 h2
      obtain ⟨a30, a31, a32, a33, rfl⟩ := exists_four_list r3 h3
      intro c hc
      have hc4 : c < 4 := by simpa [GRID_SIZE] using hc
      rw [moveGrid_down_eq]
      interval_cases c
      · rw [show getCol [[a00, a01, a02, a03], [a10, a11, a12, a13],
          [a20, a21, a22, a23], [a30, a31, a32, a33]] 0 =
            [a00, a10, a20, a30] from rfl]
        rw [show ([a00, a10, a20, a30] : List Nat).reverse =
          [a30, a20, a10, a00] from by simp]
        simp only [getCol, cell, show List.range GRID_SIZE = [0, 1, 2, 3] from rfl,
          List.map_cons, List.map_nil, List.getD_cons_zero, List.getD_cons_succ]
        apply list_eq_getD4
        rw [List.length_reverse]
        exact slideLeft_length _ (by norm_num [GRID_SIZE])
      · rw [show getCol [[a00, a01, a02, a03], [a10, a11, a12, a13],
          [a20, a21, a22, a23], [a30, a31, a32, a33]] 1 =
            [a01, a11, a21, a31] from rfl]
        rw [show ([a01, a11, a21, a31] : List Nat).reverse =
          [a31, a21, a11, a01] from by simp]
        simp only [getCol, cell, show List.range GRID_SIZE = [0, 1, 2, 3] from rfl,
          List.map_cons, List.map_nil, List.getD_cons_zero, List.getD_cons_succ]
        apply list_eq_getD4
        rw [List.length_reverse]
        exact slideLeft_length _ (by norm_num [GRID_SIZE])
      · rw [show getCol [[a00, a01, a02, a03], [a10, a11, a12, a13],
          [a20, a21, a22, a23], [a30, a31, a32, a33]] 2 =
            [a02, a12, a22, a32] from rfl]
        rw [show ([a02, a12, a22, a32] : List Nat).reverse =
          [a32, a22, a12, a02] from by simp]
        simp only [getCol, cell, show List.range GRID_SIZE = [0, 1, 2, 3] from rfl,
          List.map_cons, List.map_nil, List.getD_cons_zero, List.getD_cons_succ]
        apply list_eq_getD4
        rw [List.length_reverse]
        exact slideLeft_length _ (by norm_num [GRID_SIZE])
      · rw [show getCol [[a00, a01, a02, a03], [a10, a11, a12, a13],
          [a20, a21, a22, a23], [a30, a31, a32, a33]] 3 =
            [a03, a13, a23, a33] from rfl]
        rw [show ([a03, a13, a23, a33] : List Nat).reverse =
          [a33, a23, a13, a03] from by simp]
        simp only [getCol, cell, show List.range GRID_SIZE = [0, 1, 2, 3] from rfl,
          List.map_cons, List.map_nil, List.getD_cons_zero, List.getD_cons_succ]
        apply list_eq_getD4
        rw [List.length_reverse]
        exact slideLeft_length _ (by norm_num [GRID_SIZE])
    · obtain ⟨a00, a01, a02, a03, rfl⟩ := exists_four_list r0 h0
      obtain ⟨a10, a11, a12, a13, rfl⟩ := exists_four_list r1 h1
      obtain ⟨a20, a21, a22, a23, rfl⟩ := exists_four_list r2 h2
      obtain ⟨a30, a31, a32, a33, rfl⟩ := exists_four_list r3 h3
      rw [moveGrid_down_eq]
      rw [show List.range GRID_SIZE = [0, 1, 2, 3] from rfl]
      simp only [List.map_cons, List.map_nil, List.sum_cons, List.sum_nil]
      rw [show getCol [[a00, a01, a02, a03], [a10, a11, a12, a13],
          [a20, a21, a22, a23], [a30, a31, a32, a33]] 0 =
            [a00, a10, a20, a30] from rfl,
        show getCol [[a00, a01, a02, a03], [a10, a11, a12, a13],
          [a20, a21, a22, a23], [a30, a31, a32, a33]] 1 =
            [a01, a11, a21, a31] from rfl,
        show getCol [[a00, a01, a02, a03], [a10, a11, a12, a13],
          [a20, a21, a22, a23], [a30, a31, a32, a33]] 2 =
            [a02, a12, a22, a32] from rfl,
        show getCol [[a00, a01, a02, a03], [a10, a11, a12, a13],
          [a20, a21, a22, a23], [a30, a31, a32, a33]] 3 =
            [a03, a13, a23, a33] from rfl]
      rw [show ([a00, a10, a20, a30] : List Nat).reverse =
          [a30, a20, a10, a00] from by simp,
        show ([a01, a11, a21, a31] : List Nat).reverse =
          [a31, a21, a11, a01] from by simp,
        show ([a02, a12, a22, a32] : List Nat).reverse =
          [a32, a22, a12, a02] from by simp,
        show ([a03, a13, a23, a33] : List Nat).reverse =
          [a33, a23, a13, a03] from by simp]
      omega
  · rw [moveGrid_right_eq]
    simp only [slideLeft_eq]
    decide

/-- Witness for C9's universal part at a concrete board. -/
theorem C9_witness :
    WF [[2, 0, 0, 2], [4, 4, 2, 0], [0, 0, 0, 0], [8, 0, 8, 2]] ∧
    (moveGrid .right [[2, 0, 0, 2], [4, 4, 2, 0], [0, 0, 0, 0], [8, 0, 8, 2]]).1 =
      [[2, 0, 0, 2], [4, 4, 2, 0], [0, 0, 0, 0], [8, 0, 8, 2]].map
        (fun r => ((slideLeft r.reverse).1).reverse) :=
  ⟨by decide,
    (C9_right_down_by_reversal.1
      [[2, 0, 0, 2], [4, 4, 2, 0], [0, 0, 0, 0], [8, 0, 8, 2]] (by decide)).1⟩

/-! ## C10 machinery: a line's tiles in the canonical list -/

theorem set_getD_self {α : Type} {l : List α} {n : Nat} {d : α}
    (h : n < l.length) : l.set n (l.getD n d) = l := by
  apply List.ext_getElem?
  intro m
  by_cases hm : n = m
  · subst hm
    rw [List.getElem?_set_self h, List.getD_eq_getElem _ _ h]
    exact (List.getElem?_eq_getElem h).symm
  · rw [List.getElem?_set_ne hm]

theorem rowTiles_row (i : Nat) :
    ∀ (j0 : Nat) (r : List Nat), ∀ t ∈ rowTiles i j0 r, t.row = (i : Int) := by
  intro j0 r
  induction r generalizing j0 with
  | nil => intro t ht; simp [rowTiles] at ht
  | cons v rr ih =>
    intro t ht
    rw [rowTiles] at ht
    by_cases hv : v = 0
    · rw [if_neg (by simp [hv])] at ht
      exact ih (j0 + 1) t ht
    · rw [if_pos hv] at ht
      rcases List.mem_cons.mp ht with rfl | ht
      · rfl
      · exact ih (j0 + 1) t ht

theorem rowTiles_col_ge (i : Nat) :
    ∀ (j0 : Nat) (r : List Nat), ∀ t ∈ rowTiles i j0 r,
      (j0 : Int) ≤ t.col := by
  intro j0 r
  induction r generalizing j0 with
  | nil => intro t ht; simp [rowTiles] at ht
  | cons v rr ih =>
    intro t ht
    rw [rowTiles] at ht
    by_cases hv : v = 0
    · rw [if_neg (by simp [hv])] at ht
      have := ih (j0 + 1) t ht
      push_cast at this ⊢
      omega
    · rw [if_pos hv] at ht
      rcases List.mem_cons.mp ht with rfl | ht
      · exact le_refl _
      · have := ih (j0 + 1) t ht
        push_cast at this ⊢
        omega

theorem rowTiles_col_lt (i : Nat) :
    ∀ (j0 : Nat) (r : List Nat), ∀ t ∈ rowTiles i j0 r,
      t.col < (j0 : Int) + r.length := by
  intro j0 r
  induction r generalizing j0 with
  | nil => intro t ht; simp [rowTiles] at ht
  | cons v rr ih =>
    intro t ht
    rw [rowTiles] at ht
    by_cases hv : v = 0
    · rw [if_neg (by simp [hv])] at ht
      have := ih (j0 + 1) t ht
      simp only [List.length_cons]
      push_cast at this ⊢
      omega
    · rw [if_pos hv] at ht
      simp only [List.length_cons]
      rcases List.mem_cons.mp ht with rfl | ht
      · have : (0 : Int) ≤ rr.length := by positivity
        push_cast
        omega
      · have := ih (j0 + 1) t ht
        push_cast at this ⊢
        omega

theorem rowTiles_pairwise_col (i : Nat) :
    ∀ (j0 : Nat) (r : List Nat),
      (rowTiles i j0 r).Pairwise (fun a b => a.col < b.col) := by
  intro j0 r
  induction r generalizing j0 with
  | nil => simp [rowTiles]
  | cons v rr ih =>
    rw [rowTiles]
    by_cases hv : v = 0
    · rw [if_neg (by simp [hv])]
      exact ih (j0 + 1)
    · rw [if_pos hv]
      refine List.Pairwise.cons ?_ (ih (j0 + 1))
      intro t ht
      have := rowTiles_col_ge i (j0 + 1) rr t ht
      show (j0 : Int) < t.col
      push_cast at this
      omega

theorem filter_row_rowTiles (i i' : Nat) (j0 : Nat) (r : List Nat) :
    (rowTiles i' j0 r).filter (fun t => t.row == (i : Int)) =
      if i' = i then rowTiles i' j0 r else [] := by
  by_cases h : i' = i
  · subst h
    rw [if_pos rfl]
    apply List.filter_eq_self.mpr
    intro t ht
    simp [rowTiles_row i' j0 r t ht]
  · rw [if_neg h]
    apply List.filter_eq_nil_iff.mpr
    intro t ht
    have hr := rowTiles_row i' j0 r t ht
    simp only [hr, beq_iff_eq, Int.natCast_inj]
    exact h

theorem filter_col_rowTiles (i : Nat) (j : Nat) :
    ∀ (r : List Nat) (j0 : Nat), j0 ≤ j →
      (rowTiles i j0 r).filter (fun t => t.col == (j : Int)) =
        if j - j0 < r.length ∧ r.getD (j - j0) 0 ≠ 0 then
          [⟨r.getD (j - j0) 0, i, j⟩] else [] := by
  intro r
  induction r with
  | nil => intro j0 _; simp [rowTiles]
  | cons v rr ih =>
    intro j0 hle
    have hnil : ∀ j0' : Nat, j < j0' →
        (rowTiles i j0' rr).filter (fun t => t.col == (j : Int)) = [] := by
      intro j0' hj'
      apply List.filter_eq_nil_iff.mpr
      intro t ht
      have := rowTiles_col_ge i j0' rr t ht
      simp only [beq_iff_eq]
      intro hc
      rw [hc] at this
      have : (j0' : Int) ≤ (j : Int) := this
      push_cast at this
      omega
    rw [rowTiles]
    by_cases hj : j0 = j
    · subst hj
      by_cases hv : v = 0
      · rw [if_neg (by simp [hv])]
        rw [hnil (j0 + 1) (by omega)]
        simp [hv]
      · rw [if_pos hv, List.filter_cons]
        rw [hnil (j0 + 1) (by omega)]
        simp [hv]
    · have hlt : j0 + 1 ≤ j := by omega
      have hshift : j - j0 = (j - (j0 + 1)) + 1 := by omega
      by_cases hv : v = 0
      · rw [if_neg (by simp [hv])]
        rw [ih (j0 + 1) hlt, hshift]
        simp only [List.getD_cons_succ, List.length_cons,
          Nat.add_lt_add_iff_right]
      · rw [if_pos hv, List.filter_cons]
        have hne : ((⟨v, (i : Int), (j0 : Int)⟩ : Tile).col == (j : Int)) =
            false := by
          simp only [beq_eq_false_iff_ne, ne_eq, Int.natCast_inj]
          exact hj
        rw [hne]
        rw [ih (j0 + 1) hlt, hshift]
        simp only [List.getD_cons_succ, List.length_cons,
          Nat.add_lt_add_iff_right, Bool.false_eq_true, if_false]

/-! ## C10 machinery: sorting a travel-ordered line -/

theorem insertTile_to_end (le : Tile → Tile → Bool) (t : Tile) :
    ∀ l : List Tile, (∀ u ∈ l, le t u = false) →
      insertTile le t l = l ++ [t] := by
  intro l
  induction l with
  | nil => intro _; rfl
  | cons u us ih =>
    intro h
    rw [insertTile, if_neg (by rw [h u (by simp)]; simp)]
    rw [ih fun x hx => h x (by simp [hx])]
    rfl

/-- Sorting an already key-sorted line is the identity. -/
theorem sortTiles_sorted (k : Tile → Int) :
    ∀ l : List Tile, l.Pairwise (fun a b => k a < k b) →
      sortTiles (fun a b => decide (k a ≤ k b)) l = l := by
  intro l
  induction l with
  | nil => intro _; rfl
  | cons t ts ih =>
    intro hp
    rw [sortTiles, ih (List.Pairwise.of_cons hp)]
    cases ts with
    | nil => rfl
    | cons u us =>
      rw [insertTile,
        if_pos (by
          have hlt : k t < k u := (List.pairwise_cons.mp hp).1 u (by simp)
          simpa using le_of_lt hlt)]

/-- Sorting a key-sorted line with the opposite comparator reverses it. -/
theorem sortTiles_rev (k : Tile → Int) :
    ∀ l : List Tile, l.Pairwise (fun a b => k a < k b) →
      sortTiles (fun a b => decide (k b ≤ k a)) l = l.reverse := by
  intro l
  induction l with
  | nil => intro _; rfl
  | cons t ts ih =>
    intro hp
    rw [sortTiles, ih (List.Pairwise.of_cons hp)]
    rw [insertTile_to_end]
    · simp
    · intro u hu
      have hmem : u ∈ ts := by simpa using hu
      have hlt : k t < k u := (List.pairwise_cons.mp hp).1 u hmem
      simp only [decide_eq_false_iff_not]
      omega

/-! ## C10 machinery: `procLine` rebuilds the merged values in order -/

/-- The tiles `procLine` lays down: the line's merged values at positions
`pos, pos + step, …` of line `i`. -/
def placeTiles (isH : Bool) (i : Nat) : List Nat → Int → Int → List Tile
  | [], _, _ => []
  | v :: vs, pos, step =>
    ⟨v, if isH then (i : Int) else pos, if isH then pos else (i : Int)⟩ ::
      placeTiles isH i vs (pos + step) step

theorem procLine_spec (isH : Bool) (i : Nat) :
    ∀ (ts : List Tile) (pos step : Int),
      (procLine isH i ts pos step).1 =
        placeTiles isH i (mergeSpec (ts.map Tile.value)).1 pos step ∧
      (procLine isH i ts pos step).2.1 = (mergeSpec (ts.map Tile.value)).2 := by
  intro ts
  induction ts using twoStepRec with
  | h1 => intro pos step; simp [procLine, mergeSpec_nil, placeTiles]
  | h2 t => intro pos step; simp [procLine, mergeSpec_single, placeTiles]
  | h3 t next rest iht ihnext =>
    intro pos step
    by_cases hv : t.value = next.value
    · rw [procLine, if_pos hv]
      simp only [List.map_cons, mergeSpec_cons_cons, if_pos hv]
      constructor
      · rw [placeTiles, (iht (pos + step) step).1]
        simp [Nat.mul_comm]
      · rw [(iht (pos + step) step).2]
        omega
    · rw [procLine, if_neg hv]
      simp only [List.map_cons, mergeSpec_cons_cons, if_neg hv]
      constructor
      · rw [placeTiles]
        have := (ihnext (pos + step) step).1
        simp only [List.map_cons] at this
        rw [this]
      · have := (ihnext (pos + step) step).2
        simp only [List.map_cons] at this
        rw [this]

/-! ## C10 machinery: painting the processed tiles back onto a grid -/

def tilesFold (g : Board) (ts : List Tile) : Board := ts.foldl applyTile g

theorem tilesToGrid_fold (ts : List Tile) :
    tilesToGrid ts = tilesFold emptyGridB ts := rfl

theorem tilesFold_append (g : Board) (l1 l2 : List Tile) :
    tilesFold g (l1 ++ l2) = tilesFold (tilesFold g l1) l2 :=
  List.foldl_append _ _ _ _

/-- Write `ls` into `row` at indices `p, p+1, …`. -/
def writeSeq : List Nat → Nat → List Nat → List Nat
  | row, _, [] => row
  | row, p, v :: vs => writeSeq (row.set p v) (p + 1) vs

/-- Write `ls` into `row` at indices `p, p-1, …`. -/
def writeSeqRev : List Nat → Nat → List Nat → List Nat
  | row, _, [] => row
  | row, p, v :: vs => writeSeqRev (row.set p v) (p - 1) vs

/-- Write `ls` into column `c` at rows `p, p+1, …`. -/
def writeCol (c : Nat) : Board → Nat → List Nat → Board
  | g, _, [] => g
  | g, p, v :: vs => writeCol c (g.set p ((g.getD p []).set c v)) (p + 1) vs

/-- Write `ls` into column `c` at rows `p, p-1, …`. -/
def writeColRev (c : Nat) : Board → Nat → List Nat → Board
  | g, _, [] => g
  | g, p, v :: vs => writeColRev c (g.set p ((g.getD p []).set c v)) (p - 1) vs

theorem tilesFold_place_h (i : Nat) (hi : i < 4) :
    ∀ (ls : List Nat) (p : Nat) (g : Board), g.length = 4 →
      p + ls.length ≤ 4 →
      tilesFold g (placeTiles true i ls (p : Int) 1) =
        g.set i (writeSeq (g.getD i []) p ls) := by
  intro ls
  induction ls with
  | nil =>
    intro p g hg _
    rw [placeTiles, writeSeq]
    show g = g.set i (g.getD i [])
    exact (set_getD_self (by omega)).symm
  | cons v vs ih =>
    intro p g hg hlen
    have hp4 : p < 4 := by
      simp only [List.length_cons] at hlen
      omega
    rw [placeTiles, writeSeq]
    have happ : applyTile g ⟨v, if true then (i : Int) else (p : Int),
        if true then (p : Int) else (i : Int)⟩ =
        g.set i ((g.getD i []).set p v) := by
      rw [show (⟨v, if true then (i : Int) else (p : Int),
          if true then (p : Int) else (i : Int)⟩ : Tile) =
        ⟨v, (i : Int), (p : Int)⟩ from rfl]
      rw [applyTile]
      rw [if_pos (by simp only [GRID_SIZE]; omega)]
      simp
    show tilesFold (applyTile g _) (placeTiles true i vs ((p : Int) + 1) 1) = _
    rw [happ]
    rw [show ((p : Int) + 1) = ((p + 1 : Nat) : Int) from by omega]
    rw [ih (p + 1) _ (by simp [hg]) (by simp only [List.length_cons] at hlen; omega)]
    rw [List.set_set, getD_set_self (by omega)]

theorem tilesFold_place_h_rev (i : Nat) (hi : i < 4) :
    ∀ (ls : List Nat) (p : Nat) (g : Board), g.length = 4 → p < 4 →
      ls.length ≤ p + 1 →
      tilesFold g (placeTiles true i ls (p : Int) (-1)) =
        g.set i (writeSeqRev (g.getD i []) p ls) := by
  intro ls
  induction ls with
  | nil =>
    intro p g hg _ _
    rw [placeTiles, writeSeqRev]
    show g = g.set i (g.getD i [])
    exact (set_getD_self (by omega)).symm
  | cons v vs ih =>
    intro p g hg hp hlen
    rw [placeTiles, writeSeqRev]
    have happ : applyTile g ⟨v, if true then (i : Int) else (p : Int),
        if true then (p : Int) else (i : Int)⟩ =
        g.set i ((g.getD i []).set p v) := by
      rw [show (⟨v, if true then (i : Int) else (p : Int),
          if true then (p : Int) else (i : Int)⟩ : Tile) =
        ⟨v, (i : Int), (p : Int)⟩ from rfl]
      rw [applyTile]
      rw [if_pos (by simp only [GRID_SIZE]; omega)]
      simp
    show tilesFold (applyTile g _) (placeTiles true i vs ((p : Int) + -1) (-1)) = _
    rw [happ]
    cases vs with
    | nil =>
      rw [placeTiles, writeSeqRev]
      rfl
    | cons w ws =>
      have hp1 : 1 ≤ p := by
        simp only [List.length_cons] at hlen
        omega
      rw [show ((p : Int) + -1) = ((p - 1 : Nat) : Int) from by omega]
      rw [ih (p - 1) _ (by simp [hg]) (by omega)
        (by simp only [List.length_cons] at hlen ⊢; omega)]
      rw [List.set_set, getD_set_self (by omega)]

theorem tilesFold_place_v (c : Nat) (hc : c < 4) :
    ∀ (ls : List Nat) (p : Nat) (g : Board), p + ls.length ≤ 4 →
      tilesFold g (placeTiles false c ls (p : Int) 1) = writeCol c g p ls := by
  intro ls
  induction ls with
  | nil =>
    intro p g _
    rw [placeTiles, writeCol]
    rfl
  | cons v vs ih =>
    intro p g hlen
    have hp4 : p < 4 := by
      simp only [List.length_cons] at hlen
      omega
    rw [placeTiles, writeCol]
    have happ : applyTile g ⟨v, if false then (c : Int) else (p : Int),
        if false then (p : Int) else (c : Int)⟩ =
        g.set p ((g.getD p []).set c v) := by
      rw [show (⟨v, if false then (c : Int) else (p : Int),
          if false then (p : Int) else (c : Int)⟩ : Tile) =
        ⟨v, (p : Int), (c : Int)⟩ from rfl]
      rw [applyTile]
      rw [if_pos (by simp only [GRID_SIZE]; omega)]
      simp
    show tilesFold (applyTile g _) (placeTiles false c vs ((p : Int) + 1) 1) = _
    rw [happ]
    rw [show ((p : Int) + 1) = ((p + 1 : Nat) : Int) from by omega]
    rw [ih (p + 1) _ (by simp only [List.length_cons] at hlen; omega)]

theorem tilesFold_place_v_rev (c : Nat) (hc : c < 4) :
    ∀ (ls : List Nat) (p : Nat) (g : Board), p < 4 → ls.length ≤ p + 1 →
      tilesFold g (placeTiles false c ls (p : Int) (-1)) =
        writeColRev c g p ls := by
  intro ls
  induction ls with
  | nil =>
    intro p g _ _
    rw [placeTiles, writeColRev]
    rfl
  | cons v vs ih =>
    intro p g hp hlen
    rw [placeTiles, writeColRev]
    have happ : applyTile g ⟨v, if false then (c : Int) else (p : Int),
        if false then (p : Int) else (c : Int)⟩ =
        g.set p ((g.getD p []).set c v) := by
      rw [show (⟨v, if false then (c : Int) else (p : Int),
          if false then (p : Int) else (c : Int)⟩ : Tile) =
        ⟨v, (p : Int), (c : Int)⟩ from rfl]
      rw [applyTile]
      rw [if_pos (by simp only [GRID_SIZE]; omega)]
      simp
    show tilesFold (applyTile g _) (placeTiles false c vs ((p : Int) + -1) (-1)) = _
    rw [happ]
    cases vs with
    | nil =>
      rw [placeTiles, writeColRev]
      rfl
    | cons w ws =>
      have hp1 : 1 ≤ p := by
        simp only [List.length_cons] at hlen
        omega
      rw [show ((p : Int) + -1) = ((p - 1 : Nat) : Int) from by omega]
      rw [ih (p - 1) _ (by omega)
        (by simp only [List.length_cons] at hlen ⊢; omega)]

theorem cell_set_row_ne (g : Board) (p v c c' r : Nat) (hcc : c' ≠ c) :
    cell (g.set p ((g.getD p []).set c v)) r c' = cell g r c' := by
  by_cases hr : p = r
  · subst hr
    by_cases hl : p < g.length
    · rw [cell, getD_set_self hl, cell]
      exact getD_set_ne fun h => hcc h.symm
    · rw [List.set_eq_of_length_le (Nat.le_of_not_lt hl)]
  · rw [cell, getD_set_ne hr, cell]

theorem writeCol_cell_ne (c : Nat) :
    ∀ (ls : List Nat) (p : Nat) (g : Board) (r c' : Nat), c' ≠ c →
      cell (writeCol c g p ls) r c' = cell g r c' := by
  intro ls
  induction ls with
  | nil => intro p g r c' _; rfl
  | cons v vs ih =>
    intro p g r c' hcc
    rw [writeCol, ih (p + 1) _ r c' hcc, cell_set_row_ne g p v c c' r hcc]

theorem writeColRev_cell_ne (c : Nat) :
    ∀ (ls : List Nat) (p : Nat) (g : Board) (r c' : Nat), c' ≠ c →
      cell (writeColRev c g p ls) r c' = cell g r c' := by
  intro ls
  induction ls with
  | nil => intro p g r c' _; rfl
  | cons v vs ih =>
    intro p g r c' hcc
    rw [writeColRev, ih (p - 1) _ r c' hcc, cell_set_row_ne g p v c c' r hcc]

theorem writeCol_cell_own (c : Nat) (hc : c < 4) :
    ∀ (ls : List Nat) (p : Nat) (g : Board), g.length = 4 →
      (∀ row ∈ g, row.length = 4) → p + ls.length ≤ 4 → ∀ r, r < 4 →
      cell (writeCol c g p ls) r c =
        if p ≤ r ∧ r < p + ls.length then ls.getD (r - p) 0
        else cell g r c := by
  intro ls
  induction ls with
  | nil =>
    intro p g _ _ _ r _
    rw [writeCol, if_neg (by simp)]
  | cons v vs ih =>
    intro p g hg hrows hlen r hr
    have hp4 : p < 4 := by
      simp only [List.length_cons] at hlen
      omega
    have hrowlen : (g.getD p []).length = 4 := by
      rw [List.getD_eq_getElem _ _ (by omega)]
      exact hrows _ (List.getElem_mem _)
    rw [writeCol]
    rw [ih (p + 1) (g.set p _) (by simp [hg])
      (fun row hrow => by
        rcases List.mem_or_eq_of_mem_set hrow with h | h
        · exact hrows row h
        · rw [h, List.length_set, hrowlen])
      (by simp only [List.length_cons] at hlen; omega) r hr]
    by_cases h1 : p + 1 ≤ r ∧ r < p + 1 + vs.length
    · rw [if_pos h1, if_pos (by simp only [List.length_cons]; omega)]
      rw [show r - p = (r - (p + 1)) + 1 from by omega, List.getD_cons_succ]
    · rw [if_neg h1]
      by_cases h2 : r = p
      · subst h2
        rw [if_pos (by simp only [List.length_cons]; omega)]
        rw [Nat.sub_self, List.getD_cons_zero]
        rw [cell, getD_set_self (by omega), getD_set_self (by omega)]
      · rw [if_neg (by simp only [List.length_cons]; omega)]
        rw [cell, getD_set_ne fun hh => h2 hh.symm, cell]

theorem writeColRev_cell_own (c : Nat) (hc : c < 4) :
    ∀ (ls : List Nat) (p : Nat) (g : Board), g.length = 4 →
      (∀ row ∈ g, row.length = 4) → p < 4 → ls.length ≤ p + 1 → ∀ r, r < 4 →
      cell (writeColRev c g p ls) r c =
        if r ≤ p ∧ p < r + ls.length then ls.getD (p - r) 0
        else cell g r c := by
  intro ls
  induction ls with
  | nil =>
    intro p g _ _ _ _ r _
    rw [writeColRev, if_neg (by simp)]
  | cons v vs ih =>
    intro p g hg hrows hp hlen r hr
    have hvs : vs.length ≤ p := by
      simp only [List.length_cons] at hlen
      omega
    have hrowlen : (g.getD p []).length = 4 := by
      rw [List.getD_eq_getElem _ _ (by omega)]
      exact hrows _ (List.getElem_mem _)
    rw [writeColRev]
    rw [ih (p - 1) (g.set p _) (by simp [hg])
      (fun row hrow => by
        rcases List.mem_or_eq_of_mem_set hrow with h | h
        · exact hrows row h
        · rw [h, List.length_set, hrowlen])
      (by omega) (by omega) r hr]
    by_cases h1 : r ≤ p - 1 ∧ p - 1 < r + vs.length
    · rw [if_pos h1, if_pos (by simp only [List.length_cons]; omega)]
      rw [show p - r = (p - 1 - r) + 1 from by omega, List.getD_cons_succ]
    · rw [if_neg h1]
      by_cases h2 : r = p
      · subst h2
        rw [if_pos (by simp only [List.length_cons]; omega)]
        rw [Nat.sub_self, List.getD_cons_zero]
        rw [cell, getD_set_self (by omega), getD_set_self (by omega)]
      · rw [if_neg (by simp only [List.length_cons]; omega)]
        rw [cell, getD_set_ne fun hh => h2 hh.symm, cell]

theorem writeSeq_zeros (ls : List Nat) (h : ls.length ≤ 4) :
    writeSeq [0, 0, 0, 0] 0 ls = ls ++ List.replicate (4 - ls.length) 0 := by
  match ls with
  | [] => rfl
  | [a] => rfl
  | [a, b] => rfl
  | [a, b, c] => rfl
  | [a, b, c, d] => rfl
  | a :: b :: c :: d :: e :: t => simp at h

theorem writeSeqRev_zeros (ls : List Nat) (h : ls.length ≤ 4) :
    writeSeqRev [0, 0, 0, 0] 3 ls =
      (ls ++ List.replicate (4 - ls.length) 0).reverse := by
  match ls with
  | [] => rfl
  | [a] => rfl
  | [a, b] => rfl
  | [a, b, c] => rfl
  | [a, b, c, d] => rfl
  | a :: b :: c :: d :: e :: t => simp at h

theorem pad_getD (ls : List Nat) (h : ls.length ≤ 4) (r : Nat) (hr : r < 4) :
    (ls ++ List.replicate (4 - ls.length) 0).getD r 0 =
      if r < ls.length then ls.getD r 0 else 0 := by
  match ls with
  | [] => interval_cases r <;> rfl
  | [a] => interval_cases r <;> rfl
  | [a, b] => interval_cases r <;> rfl
  | [a, b, c] => interval_cases r <;> rfl
  | [a, b, c, d] => interval_cases r <;> rfl
  | a :: b :: c :: d :: e :: t => simp at h

theorem pad_rev_getD (ls : List Nat) (h : ls.length ≤ 4) (r : Nat) (hr : r < 4) :
    (ls ++ List.replicate (4 - ls.length) 0).reverse.getD r 0 =
      if 4 - ls.length ≤ r then ls.getD (3 - r) 0 else 0 := by
  match ls with
  | [] => interval_cases r <;> rfl
  | [a] => interval_cases r <;> rfl
  | [a, b] => interval_cases r <;> rfl
  | [a, b, c] => interval_cases r <;> rfl
  | [a, b, c, d] => interval_cases r <;> rfl
  | a :: b :: c :: d :: e :: t => simp at h

theorem row_ext4 (x y : List Nat) (hx : x.length = 4) (hy : y.length = 4)
    (h : ∀ j, j < 4 → x.getD j 0 = y.getD j 0) : x = y := by
  obtain ⟨a, b, c, d, rfl⟩ := exists_four_list x hx
  obtain ⟨a', b', c', d', rfl⟩ := exists_four_list y hy
  have h0 := h 0 (by omega)
  have h1 := h 1 (by omega)
  have h2 := h 2 (by omega)
  have h3 := h 3 (by omega)
  simp only [List.getD_cons_zero, List.getD_cons_succ] at h0 h1 h2 h3
  rw [h0, h1, h2, h3]

theorem board_ext (A B : Board) (hA : A.length = 4)
    (hAr : ∀ r ∈ A, r.length = 4) (hB : B.length = 4)
    (hBr : ∀ r ∈ B, r.length = 4)
    (h : ∀ i, i < 4 → ∀ j, j < 4 → cell A i j = cell B i j) : A = B := by
  obtain ⟨a0, a1, a2, a3, rfl, ha0, ha1, ha2, ha3⟩ :=
    WF_destruct A ⟨hA, hAr⟩
  obtain ⟨b0, b1, b2, b3, rfl, hb0, hb1, hb2, hb3⟩ :=
    WF_destruct B ⟨hB, hBr⟩
  have e0 : a0 = b0 := row_ext4 _ _ ha0 hb0 fun j hj => h 0 (by omega) j hj
  have e1 : a1 = b1 := row_ext4 _ _ ha1 hb1 fun j hj => h 1 (by omega) j hj
  have e2 : a2 = b2 := row_ext4 _ _ ha2 hb2 fun j hj => h 2 (by omega) j hj
  have e3 : a3 = b3 := row_ext4 _ _ ha3 hb3 fun j hj => h 3 (by omega) j hj
  rw [e0, e1, e2, e3]

theorem cell_emptyGridB (r c : Nat) : cell emptyGridB r c = 0 := by
  have hrow : ∀ n : Nat, ([0, 0, 0, 0] : List Nat).getD n 0 = 0 := by
    intro n
    match n with
    | 0 => rfl
    | 1 => rfl
    | 2 => rfl
    | 3 => rfl
    | n + 4 =>
      rw [List.getD_eq_getElem?_getD, List.getElem?_eq_none (by simp)]
      rfl
  rw [show emptyGridB =
    [[0, 0, 0, 0], [0, 0, 0, 0], [0, 0, 0, 0], [0, 0, 0, 0]] from rfl, cell]
  match r with
  | 0 => exact hrow c
  | 1 => exact hrow c
  | 2 => exact hrow c
  | 3 => exact hrow c
  | n + 4 =>
    rw [List.getD_eq_getElem?_getD, List.getElem?_eq_none (by simp)]
    rfl

/-- The loop body of the tile-engine move always contributes its processed
line, points and moved bit — an empty line contributes nothing either way. -/
theorem p0MoveStep_eq (isH rev : Bool) (tiles : List Tile)
    (acc : List Tile × Nat × Bool) (i : Nat) :
    p0MoveStep isH rev tiles acc i =
      (acc.1 ++ (procLine isH i
          (sortTiles
            (fun a b =>
              if rev then tileKey isH b ≤ tileKey isH a
              else tileKey isH a ≤ tileKey isH b)
            (tiles.filter fun t =>
              if isH then t.row == (i : Int) else t.col == (i : Int)))
          (if rev then (GRID_SIZE : Int) - 1 else 0)
          (if rev then -1 else 1)).1,
       acc.2.1 + (procLine isH i
          (sortTiles
            (fun a b =>
              if rev then tileKey isH b ≤ tileKey isH a
              else tileKey isH a ≤ tileKey isH b)
            (tiles.filter fun t =>
              if isH then t.row == (i : Int) else t.col == (i : Int)))
          (if rev then (GRID_SIZE : Int) - 1 else 0)
          (if rev then -1 else 1)).2.1,
       acc.2.2 || (procLine isH i
          (sortTiles
            (fun a b =>
              if rev then tileKey isH b ≤ tileKey isH a
              else tileKey isH a ≤ tileKey isH b)
            (tiles.filter fun t =>
              if isH then t.row == (i : Int) else t.col == (i : Int)))
          (if rev then (GRID_SIZE : Int) - 1 else 0)
          (if rev then -1 else 1)).2.2) := by
  rw [p0MoveStep]
  by_cases h : (tiles.filter fun t =>
      if isH then t.row == (i : Int) else t.col == (i : Int)).isEmpty
  · rw [if_pos h, List.isEmpty_iff.mp h]
    show acc = _
    rw [show sortTiles
        (fun a b =>
          if rev then tileKey isH b ≤ tileKey isH a
          else tileKey isH a ≤ tileKey isH b) [] = [] from rfl]
    rw [show procLine isH i [] (if rev then (GRID_SIZE : Int) - 1 else 0)
      (if rev then -1 else 1) = ([], 0, false) from rfl]
    simp
  · rw [if_neg h]

theorem p0Move_left_unfold (tiles : List Tile) :
    p0Move .left tiles =
      p0MoveStep true false tiles
        (p0MoveStep true false tiles
          (p0MoveStep true false tiles
            (p0MoveStep true false tiles ([], 0, false) 0) 1) 2) 3 := by
  rw [p0Move, show List.range GRID_SIZE = [0, 1, 2, 3] from rfl]
  rfl

theorem p0Move_right_unfold (tiles : List Tile) :
    p0Move .right tiles =
      p0MoveStep true true tiles
        (p0MoveStep true true tiles
          (p0MoveStep true true tiles
            (p0MoveStep true true tiles ([], 0, false) 0) 1) 2) 3 := by
  rw [p0Move, show List.range GRID_SIZE = [0, 1, 2, 3] from rfl]
  rfl

theorem p0Move_up_unfold (tiles : List Tile) :
    p0Move .up tiles =
      p0MoveStep false false tiles
        (p0MoveStep false false tiles
          (p0MoveStep false false tiles
            (p0MoveStep false false tiles ([], 0, false) 0) 1) 2) 3 := by
  rw [p0Move, show List.range GRID_SIZE = [0, 1, 2, 3] from rfl]
  rfl

theorem p0Move_down_unfold (tiles : List Tile) :
    p0Move .down tiles =
      p0MoveStep false true tiles
        (p0MoveStep false true tiles
          (p0MoveStep false true tiles
            (p0MoveStep false true tiles ([], 0, false) 0) 1) 2) 3 := by
  rw [p0Move, show List.range GRID_SIZE = [0, 1, 2, 3] from rfl]
  rfl

theorem tilesFold_place_h0 (i : Nat) (hi : i < 4) (ls : List Nat) (g : Board)
    (hg : g.length = 4) (hlen : ls.length ≤ 4) :
    tilesFold g (placeTiles true i ls 0 1) =
      g.set i (writeSeq (g.getD i []) 0 ls) := by
  have := tilesFold_place_h i hi ls 0 g hg (by omega)
  simpa using this

theorem tilesFold_place_h3 (i : Nat) (hi : i < 4) (ls : List Nat) (g : Board)
    (hg : g.length = 4) (hlen : ls.length ≤ 4) :
    tilesFold g (placeTiles true i ls 3 (-1)) =
      g.set i (writeSeqRev (g.getD i []) 3 ls) := by
  have := tilesFold_place_h_rev i hi ls 3 g hg (by omega) (by omega)
  simpa using this

theorem tilesFold_place_v0 (c : Nat) (hc : c < 4) (ls : List Nat) (g : Board)
    (hlen : ls.length ≤ 4) :
    tilesFold g (placeTiles false c ls 0 1) = writeCol c g 0 ls := by
  have := tilesFold_place_v c hc ls 0 g (by omega)
  simpa using this

theorem tilesFold_place_v3 (c : Nat) (hc : c < 4) (ls : List Nat) (g : Board)
    (hlen : ls.length ≤ 4) :
    tilesFold g (placeTiles false c ls 3 (-1)) = writeColRev c g 3 ls := by
  have := tilesFold_place_v_rev c hc ls 3 g (by omega) (by omega)
  simpa using this

/-- Painting four horizontal merge results onto the empty grid writes one row
each, in order. -/
theorem tilesFold_rows4 (a0 a1 a2 a3 : List Nat)
    (hl0 : a0.length ≤ 4) (hl1 : a1.length ≤ 4)
    (hl2 : a2.length ≤ 4) (hl3 : a3.length ≤ 4) :
    tilesFold emptyGridB
      (placeTiles true 0 a0 0 1 ++
        (placeTiles true 1 a1 0 1 ++
          (placeTiles true 2 a2 0 1 ++ placeTiles true 3 a3 0 1))) =
    [writeSeq [0, 0, 0, 0] 0 a0, writeSeq [0, 0, 0, 0] 0 a1,
      writeSeq [0, 0, 0, 0] 0 a2, writeSeq [0, 0, 0, 0] 0 a3] := by
  rw [tilesFold_append, tilesFold_append, tilesFold_append]
  rw [tilesFold_place_h0 0 (by omega) a0 emptyGridB rfl hl0]
  rw [show emptyGridB =
    [[0, 0, 0, 0], [0, 0, 0, 0], [0, 0, 0, 0], [0, 0, 0, 0]] from rfl]
  simp only [List.set_cons_zero, List.set_cons_succ, List.getD_cons_zero,
    List.getD_cons_succ]
  rw [tilesFold_place_h0 1 (by omega) a1
    [writeSeq [0, 0, 0, 0] 0 a0, [0, 0, 0, 0], [0, 0, 0, 0], [0, 0, 0, 0]]
    (by simp) hl1]
  simp only [List.set_cons_zero, List.set_cons_succ, List.getD_cons_zero,
    List.getD_cons_succ]
  rw [tilesFold_place_h0 2 (by omega) a2
    [writeSeq [0, 0, 0, 0] 0 a0, writeSeq [0, 0, 0, 0] 0 a1,
      [0, 0, 0, 0], [0, 0, 0, 0]] (by simp) hl2]
  simp only [List.set_cons_zero, List.set_cons_succ, List.getD_cons_zero,
    List.getD_cons_succ]
  rw [tilesFold_place_h0 3 (by omega) a3
    [writeSeq [0, 0, 0, 0] 0 a0, writeSeq [0, 0, 0, 0] 0 a1,
      writeSeq [0, 0, 0, 0] 0 a2, [0, 0, 0, 0]] (by simp) hl3]
  simp only [List.set_cons_zero, List.set_cons_succ, List.getD_cons_zero,
    List.getD_cons_succ]

/-- Painting four right-to-left merge results onto the empty grid writes one
reversed row each, in order. -/
theorem tilesFold_rows4_rev (a0 a1 a2 a3 : List Nat)
    (hl0 : a0.length ≤ 4) (hl1 : a1.length ≤ 4)
    (hl2 : a2.length ≤ 4) (hl3 : a3.length ≤ 4) :
    tilesFold emptyGridB
      (placeTiles true 0 a0 3 (-1) ++
        (placeTiles true 1 a1 3 (-1) ++
          (placeTiles true 2 a2 3 (-1) ++ placeTiles true 3 a3 3 (-1)))) =
    [writeSeqRev [0, 0, 0, 0] 3 a0, writeSeqRev [0, 0, 0, 0] 3 a1,
      writeSeqRev [0, 0, 0, 0] 3 a2, writeSeqRev [0, 0, 0, 0] 3 a3] := by
  rw [tilesFold_append, tilesFold_append, tilesFold_append]
  rw [tilesFold_place_h3 0 (by omega) a0 emptyGridB rfl hl0]
  rw [show emptyGridB =
    [[0, 0, 0, 0], [0, 0, 0, 0], [0, 0, 0, 0], [0, 0, 0, 0]] from rfl]
  simp only [List.set_cons_zero, List.set_cons_succ, List.getD_cons_zero,
    List.getD_cons_succ]
  rw [tilesFold_place_h3 1 (by omega) a1
    [writeSeqRev [0, 0, 0, 0] 3 a0, [0, 0, 0, 0], [0, 0, 0, 0], [0, 0, 0, 0]]
    (by simp) hl1]
  simp only [List.set_cons_zero, List.set_cons_succ, List.getD_cons_zero,
    List.getD_cons_succ]
  rw [tilesFold_place_h3 2 (by omega) a2
    [writeSeqRev [0, 0, 0, 0] 3 a0, writeSeqRev [0, 0, 0, 0] 3 a1,
      [0, 0, 0, 0], [0, 0, 0, 0]] (by simp) hl2]
  simp only [List.set_cons_zero, List.set_cons_succ, List.getD_cons_zero,
    List.getD_cons_succ]
  rw [tilesFold_place_h3 3 (by omega) a3
    [writeSeqRev [0, 0, 0, 0] 3 a0, writeSeqRev [0, 0, 0, 0] 3 a1,
      writeSeqRev [0, 0, 0, 0] 3 a2, [0, 0, 0, 0]] (by simp) hl3]
  simp only [List.set_cons_zero, List.set_cons_succ, List.getD_cons_zero,
    List.getD_cons_succ]

theorem p0_left_equiv (r0 r1 r2 r3 : List Nat) (h0 : r0.length = 4)
    (h1 : r1.length = 4) (h2 : r2.length = 4) (h3 : r3.length = 4) :
    tilesToGrid (p0Move .left (gridToTiles [r0, r1, r2, r3])).1 =
      (moveGrid .left [r0, r1, r2, r3]).1 ∧
    (p0Move .left (gridToTiles [r0, r1, r2, r3])).2.1 =
      (moveGrid .left [r0, r1, r2, r3]).2.1 := by
  have hline : ∀ i : Nat,
      ((gridToTiles [r0, r1, r2, r3]).filter fun t => t.row == (i : Int)) =
      (if 0 = i then rowTiles 0 0 r0 else []) ++
        ((if 1 = i then rowTiles 1 0 r1 else []) ++
          ((if 2 = i then rowTiles 2 0 r2 else []) ++
            (if 3 = i then rowTiles 3 0 r3 else []))) := by
    intro i
    rw [gridToTiles_four]
    simp only [List.filter_append]
    rw [filter_row_rowTiles i 0 0 r0, filter_row_rowTiles i 1 0 r1,
      filter_row_rowTiles i 2 0 r2, filter_row_rowTiles i 3 0 r3]
    simp [List.append_assoc]
  have hlen0 : (mergeSpec (r0.filter fun v => v != 0)).1.length ≤ 4 :=
    le_trans (mergeSpec_length_le _) (by rw [← h0]; exact List.length_filter_le _ _)
  have hlen1 : (mergeSpec (r1.filter fun v => v != 0)).1.length ≤ 4 :=
    le_trans (mergeSpec_length_le _) (by rw [← h1]; exact List.length_filter_le _ _)
  have hlen2 : (mergeSpec (r2.filter fun v => v != 0)).1.length ≤ 4 :=
    le_trans (mergeSpec_length_le _) (by rw [← h2]; exact List.length_filter_le _ _)
  have hlen3 : (mergeSpec (r3.filter fun v => v != 0)).1.length ≤ 4 :=
    le_trans (mergeSpec_length_le _) (by rw [← h3]; exact List.length_filter_le _ _)
  rw [p0Move_left_unfold]
  simp only [p0MoveStep_eq]
  simp only [if_true, Bool.false_eq_true, if_false]
  rw [hline 0, hline 1, hline 2, hline 3]
  simp
  rw [sortTiles_sorted (tileKey true) _ (rowTiles_pairwise_col 0 0 r0),
    sortTiles_sorted (tileKey true) _ (rowTiles_pairwise_col 1 0 r1),
    sortTiles_sorted (tileKey true) _ (rowTiles_pairwise_col 2 0 r2),
    sortTiles_sorted (tileKey true) _ (rowTiles_pairwise_col 3 0 r3)]
  rw [(procLine_spec true 0 (rowTiles 0 0 r0) 0 1).1,
    (procLine_spec true 0 (rowTiles 0 0 r0) 0 1).2,
    (procLine_spec true 1 (rowTiles 1 0 r1) 0 1).1,
    (procLine_spec true 1 (rowTiles 1 0 r1) 0 1).2,
    (procLine_spec true 2 (rowTiles 2 0 r2) 0 1).1,
    (procLine_spec true 2 (rowTiles 2 0 r2) 0 1).2,
    (procLine_spec true 3 (rowTiles 3 0 r3) 0 1).1,
    (procLine_spec true 3 (rowTiles 3 0 r3) 0 1).2]
  rw [rowTiles_map_value 0 0 r0, rowTiles_map_value 1 0 r1,
    rowTiles_map_value 2 0 r2, rowTiles_map_value 3 0 r3]
  constructor
  · rw [tilesToGrid_fold]
    rw [tilesFold_rows4 _ _ _ _ hlen0 hlen1 hlen2 hlen3]
    rw [writeSeq_zeros _ hlen0, writeSeq_zeros _ hlen1,
      writeSeq_zeros _ hlen2, writeSeq_zeros _ hlen3]
    rw [moveGrid_left_eq]
    dsimp only
    rw [slideLeft_fst r0, slideLeft_fst r1, slideLeft_fst r2, slideLeft_fst r3]
    simp only [show GRID_SIZE = 4 from rfl]
  · rw [moveGrid_left_eq]
    dsimp only
    rw [slideLeft_snd r0, slideLeft_snd r1, slideLeft_snd r2, slideLeft_snd r3]

theorem p0_right_equiv (r0 r1 r2 r3 : List Nat) (h0 : r0.length = 4)
    (h1 : r1.length = 4) (h2 : r2.length = 4) (h3 : r3.length = 4) :
    tilesToGrid (p0Move .right (gridToTiles [r0, r1, r2, r3])).1 =
      (moveGrid .right [r0, r1, r2, r3]).1 ∧
    (p0Move .right (gridToTiles [r0, r1, r2, r3])).2.1 =
      (moveGrid .right [r0, r1, r2, r3]).2.1 := by
  have hline : ∀ i : Nat,
      ((gridToTiles [r0, r1, r2, r3]).filter fun t => t.row == (i : Int)) =
      (if 0 = i then rowTiles 0 0 r0 else []) ++
        ((if 1 = i then rowTiles 1 0 r1 else []) ++
          ((if 2 = i then rowTiles 2 0 r2 else []) ++
            (if 3 = i then rowTiles 3 0 r3 else []))) := by
    intro i
    rw [gridToTiles_four]
    simp only [List.filter_append]
    rw [filter_row_rowTiles i 0 0 r0, filter_row_rowTiles i 1 0 r1,
      filter_row_rowTiles i 2 0 r2, filter_row_rowTiles i 3 0 r3]
    simp [List.append_assoc]
  have hlen0 : (mergeSpec ((r0.filter fun v => v != 0).reverse)).1.length ≤ 4 :=
    le_trans (mergeSpec_length_le _) (by
      simp only [List.length_reverse]
      rw [← h0]; exact List.length_filter_le _ _)
  have hlen1 : (mergeSpec ((r1.filter fun v => v != 0).reverse)).1.length ≤ 4 :=
    le_trans (mergeSpec_length_le _) (by
      simp only [List.length_reverse]
      rw [← h1]; exact List.length_filter_le _ _)
  have hlen2 : (mergeSpec ((r2.filter fun v => v != 0).reverse)).1.length ≤ 4 :=
    le_trans (mergeSpec_length_le _) (by
      simp only [List.length_reverse]
      rw [← h2]; exact List.length_filter_le _ _)
  have hlen3 : (mergeSpec ((r3.filter fun v => v != 0).reverse)).1.length ≤ 4 :=
    le_trans (mergeSpec_length_le _) (by
      simp only [List.length_reverse]
      rw [← h3]; exact List.length_filter_le _ _)
  rw [p0Move_right_unfold]
  simp only [p0MoveStep_eq]
  simp only [if_true, Bool.false_eq_true, if_false]
  rw [hline 0, hline 1, hline 2, hline 3]
  simp
  rw [sortTiles_rev (tileKey true) _ (rowTiles_pairwise_col 0 0 r0),
    sortTiles_rev (tileKey true) _ (rowTiles_pairwise_col 1 0 r1),
    sortTiles_rev (tileKey true) _ (rowTiles_pairwise_col 2 0 r2),
    sortTiles_rev (tileKey true) _ (rowTiles_pairwise_col 3 0 r3)]
  rw [(procLine_spec true 0 ((rowTiles 0 0 r0).reverse)
      ((GRID_SIZE : Int) - 1) (-1)).1,
    (procLine_spec true 0 ((rowTiles 0 0 r0).reverse)
      ((GRID_SIZE : Int) - 1) (-1)).2,
    (procLine_spec true 1 ((rowTiles 1 0 r1).reverse)
      ((GRID_SIZE : Int) - 1) (-1)).1,
    (procLine_spec true 1 ((rowTiles 1 0 r1).reverse)
      ((GRID_SIZE : Int) - 1) (-1)).2,
    (procLine_spec true 2 ((rowTiles 2 0 r2).reverse)
      ((GRID_SIZE : Int) - 1) (-1)).1,
    (procLine_spec true 2 ((rowTiles 2 0 r2).reverse)
      ((GRID_SIZE : Int) - 1) (-1)).2,
    (procLine_spec true 3 ((rowTiles 3 0 r3).reverse)
      ((GRID_SIZE : Int) - 1) (-1)).1,
    (procLine_spec true 3 ((rowTiles 3 0 r3).reverse)
      ((GRID_SIZE : Int) - 1) (-1)).2]
  simp only [List.map_reverse]
  rw [rowTiles_map_value 0 0 r0, rowTiles_map_value 1 0 r1,
    rowTiles_map_value 2 0 r2, rowTiles_map_value 3 0 r3]
  rw [show ((GRID_SIZE : Int) - 1) = 3 from by decide]
  constructor
  · rw [tilesToGrid_fold]
    rw [tilesFold_rows4_rev _ _ _ _ hlen0 hlen1 hlen2 hlen3]
    rw [writeSeqRev_zeros _ hlen0, writeSeqRev_zeros _ hlen1,
      writeSeqRev_zeros _ hlen2, writeSeqRev_zeros _ hlen3]
    rw [moveGrid_right_eq]
    dsimp only
    rw [slideLeft_fst r0.reverse, slideLeft_fst r1.reverse,
      slideLeft_fst r2.reverse, slideLeft_fst r3.reverse]
    simp only [List.filter_reverse]
    simp only [show GRID_SIZE = 4 from rfl]
  · rw [moveGrid_right_eq]
    dsimp only
    rw [slideLeft_snd r0.reverse, slideLeft_snd r1.reverse,
      slideLeft_snd r2.reverse, slideLeft_snd r3.reverse]
    simp only [List.filter_reverse]

/-! ## C10 machinery: columns as travel-ordered tile lines -/

theorem getD_zero_of_le (ls : List Nat) (r : Nat) (h : ls.length ≤ r) :
    ls.getD r 0 = 0 := by
  rw [List.getD_eq_getElem?_getD, List.getElem?_eq_none h]
  rfl

/-- A padded merge result read back at a row below 4. -/
theorem own_pad (ls : List Nat) (h : ls.length ≤ 4) (i : Nat) (hi : i < 4) :
    (if 0 ≤ i ∧ i < 0 + ls.length then ls.getD (i - 0) 0 else 0) =
      (ls ++ List.replicate (4 - ls.length) 0).getD i 0 := by
  rw [pad_getD ls h i hi]
  by_cases hc : i < ls.length
  · rw [if_pos ⟨by omega, by omega⟩, if_pos hc, Nat.sub_zero]
  · rw [if_neg (by omega), if_neg hc]

/-- A padded-and-reversed merge result read back at a row below 4. -/
theorem own_pad_rev (ls : List Nat) (h : ls.length ≤ 4) (i : Nat) (hi : i < 4) :
    (if i ≤ 3 ∧ 3 < i + ls.length then ls.getD (3 - i) 0 else 0) =
      (ls ++ List.replicate (4 - ls.length) 0).reverse.getD i 0 := by
  rw [pad_rev_getD ls h i hi]
  by_cases hc : 4 - ls.length ≤ i
  · rw [if_pos ⟨by omega, by omega⟩, if_pos hc]
  · rw [if_neg (by omega), if_neg hc]

theorem writeCol_WF (c : Nat) :
    ∀ (ls : List Nat) (p : Nat) (g : Board), g.length = 4 →
      (∀ row ∈ g, row.length = 4) →
      (writeCol c g p ls).length = 4 ∧
        ∀ row ∈ writeCol c g p ls, row.length = 4 := by
  intro ls
  induction ls with
  | nil => intro p g hg hrows; rw [writeCol]; exact ⟨hg, hrows⟩
  | cons v vs ih =>
    intro p g hg hrows
    rw [writeCol]
    by_cases hp : p < g.length
    · refine ih (p + 1) _ (by simp [hg]) ?_
      intro row hrow
      rcases List.mem_or_eq_of_mem_set hrow with h | h
      · exact hrows row h
      · rw [h, List.length_set, List.getD_eq_getElem _ _ hp]
        exact hrows _ (List.getElem_mem _)
    · rw [List.set_eq_of_length_le (Nat.le_of_not_lt hp)]
      exact ih (p + 1) g hg hrows

theorem writeColRev_WF (c : Nat) :
    ∀ (ls : List Nat) (p : Nat) (g : Board), g.length = 4 →
      (∀ row ∈ g, row.length = 4) →
      (writeColRev c g p ls).length = 4 ∧
        ∀ row ∈ writeColRev c g p ls, row.length = 4 := by
  intro ls
  induction ls with
  | nil => intro p g hg hrows; rw [writeColRev]; exact ⟨hg, hrows⟩
  | cons v vs ih =>
    intro p g hg hrows
    rw [writeColRev]
    by_cases hp : p < g.length
    · refine ih (p - 1) _ (by simp [hg]) ?_
      intro row hrow
      rcases List.mem_or_eq_of_mem_set hrow with h | h
      · exact hrows row h
      · rw [h, List.length_set, List.getD_eq_getElem _ _ hp]
        exact hrows _ (List.getElem_mem _)
    · rw [List.set_eq_of_length_le (Nat.le_of_not_lt hp)]
      exact ih (p - 1) g hg hrows

/-- The tile line of one column of a destructured board: one tile per
nonzero cell, in row order. -/
def colLine (j : Nat) (c0 c1 c2 c3 : Nat) : List Tile :=
  (if c0 ≠ 0 then [⟨c0, ((0 : Nat) : Int), (j : Int)⟩] else []) ++
    (if c1 ≠ 0 then [⟨c1, ((1 : Nat) : Int), (j : Int)⟩] else []) ++
    (if c2 ≠ 0 then [⟨c2, ((2 : Nat) : Int), (j : Int)⟩] else []) ++
    (if c3 ≠ 0 then [⟨c3, ((3 : Nat) : Int), (j : Int)⟩] else [])

theorem colLine_pairwise (j c0 c1 c2 c3 : Nat) :
    (colLine j c0 c1 c2 c3).Pairwise
      (fun a b => tileKey false a < tileKey false b) := by
  simp only [colLine]
  split_ifs <;> simp [List.pairwise_append, tileKey]

theorem colLine_map_value (j c0 c1 c2 c3 : Nat) :
    (colLine j c0 c1 c2 c3).map Tile.value =
      [c0, c1, c2, c3].filter (fun v => v != 0) := by
  simp only [colLine, List.map_append]
  split_ifs <;> simp_all [List.filter_cons]

/-- `filter_col_rowTiles` specialised to a four-cell row literal. -/
theorem filter_col_rowTiles4 (i j : Nat) (hj : j < 4) (x0 x1 x2 x3 : Nat) :
    (rowTiles i 0 [x0, x1, x2, x3]).filter (fun t => t.col == (j : Int)) =
      if ([x0, x1, x2, x3] : List Nat).getD j 0 ≠ 0 then
        [⟨([x0, x1, x2, x3] : List Nat).getD j 0, (i : Int), (j : Int)⟩]
      else [] := by
  rw [filter_col_rowTiles i j [x0, x1, x2, x3] 0 (by omega)]
  simp only [Nat.sub_zero]
  simp only [show (j < ([x0, x1, x2, x3] : List Nat).length ∧
      ([x0, x1, x2, x3] : List Nat).getD j 0 ≠ 0) ↔
      (([x0, x1, x2, x3] : List Nat).getD j 0 ≠ 0) from
    ⟨fun h => h.2, fun h => ⟨by
      rw [show ([x0, x1, x2, x3] : List Nat).length = 4 from rfl]; omega, h⟩⟩]

/-- Painting four top-down column merge results onto the empty grid writes
one column each. -/
theorem tilesFold_cols4 (m0 m1 m2 m3 : List Nat)
    (hl0 : m0.length ≤ 4) (hl1 : m1.length ≤ 4)
    (hl2 : m2.length ≤ 4) (hl3 : m3.length ≤ 4) :
    tilesFold emptyGridB
      (placeTiles false 0 m0 0 1 ++ placeTiles false 1 m1 0 1 ++
        placeTiles false 2 m2 0 1 ++ placeTiles false 3 m3 0 1) =
    [[(m0 ++ List.replicate (4 - m0.length) 0).getD 0 0,
      (m1 ++ List.replicate (4 - m1.length) 0).getD 0 0,
      (m2 ++ List.replicate (4 - m2.length) 0).getD 0 0,
      (m3 ++ List.replicate (4 - m3.length) 0).getD 0 0],
     [(m0 ++ List.replicate (4 - m0.length) 0).getD 1 0,
      (m1 ++ List.replicate (4 - m1.length) 0).getD 1 0,
      (m2 ++ List.replicate (4 - m2.length) 0).getD 1 0,
      (m3 ++ List.replicate (4 - m3.length) 0).getD 1 0],
     [(m0 ++ List.replicate (4 - m0.length) 0).getD 2 0,
      (m1 ++ List.replicate (4 - m1.length) 0).getD 2 0,
      (m2 ++ List.replicate (4 - m2.length) 0).getD 2 0,
      (m3 ++ List.replicate (4 - m3.length) 0).getD 2 0],
     [(m0 ++ List.replicate (4 - m0.length) 0).getD 3 0,
      (m1 ++ List.replicate (4 - m1.length) 0).getD 3 0,
      (m2 ++ List.replicate (4 - m2.length) 0).getD 3 0,
      (m3 ++ List.replicate (4 - m3.length) 0).getD 3 0]] := by
  rw [tilesFold_append, tilesFold_append, tilesFold_append]
  rw [tilesFold_place_v0 0 (by omega) m0 emptyGridB hl0]
  rw [tilesFold_place_v0 1 (by omega) m1 _ hl1]
  rw [tilesFold_place_v0 2 (by omega) m2 _ hl2]
  rw [tilesFold_place_v0 3 (by omega) m3 _ hl3]
  have wfE : emptyGridB.length = 4 ∧ ∀ row ∈ emptyGridB, row.length = 4 := by
    decide
  have wf1 := writeCol_WF 0 m0 0 emptyGridB wfE.1 wfE.2
  have wf2 := writeCol_WF 1 m1 0 _ wf1.1 wf1.2
  have wf3 := writeCol_WF 2 m2 0 _ wf2.1 wf2.2
  have wf4 := writeCol_WF 3 m3 0 _ wf3.1 wf3.2
  refine board_ext _ _ wf4.1 wf4.2 rfl ?_ ?_
  · intro row hrow
    simp only [List.mem_cons, List.not_mem_nil, or_false] at hrow
    rcases hrow with h | h | h | h <;> subst h <;> rfl
  · intro i hi j hj
    interval_cases j
    · rw [writeCol_cell_ne 3 m3 0 _ i 0 (by omega),
        writeCol_cell_ne 2 m2 0 _ i 0 (by omega),
        writeCol_cell_ne 1 m1 0 _ i 0 (by omega),
        writeCol_cell_own 0 (by omega) m0 0 emptyGridB wfE.1 wfE.2
          (by omega) i hi,
        cell_emptyGridB, own_pad m0 hl0 i hi]
      interval_cases i <;> rfl
    · rw [writeCol_cell_ne 3 m3 0 _ i 1 (by omega),
        writeCol_cell_ne 2 m2 0 _ i 1 (by omega),
        writeCol_cell_own 1 (by omega) m1 0 _ wf1.1 wf1.2 (by omega) i hi,
        writeCol_cell_ne 0 m0 0 _ i 1 (by omega),
        cell_emptyGridB, own_pad m1 hl1 i hi]
      interval_cases i <;> rfl
    · rw [writeCol_cell_ne 3 m3 0 _ i 2 (by omega),
        writeCol_cell_own 2 (by omega) m2 0 _ wf2.1 wf2.2 (by omega) i hi,
        writeCol_cell_ne 1 m1 0 _ i 2 (by omega),
        writeCol_cell_ne 0 m0 0 _ i 2 (by omega),
        cell_emptyGridB, own_pad m2 hl2 i hi]
      interval_cases i <;> rfl
    · rw [writeCol_cell_own 3 (by omega) m3 0 _ wf3.1 wf3.2 (by omega) i hi,
        writeCol_cell_ne 2 m2 0 _ i 3 (by omega),
        writeCol_cell_ne 1 m1 0 _ i 3 (by omega),
        writeCol_cell_ne 0 m0 0 _ i 3 (by omega),
        cell_emptyGridB, own_pad m3 hl3 i hi]
      interval_cases i <;> rfl

/-- Painting four bottom-up column merge results onto the empty grid writes
one reversed column each. -/
theorem tilesFold_cols4_rev (m0 m1 m2 m3 : List Nat)
    (hl0 : m0.length ≤ 4) (hl1 : m1.length ≤ 4)
    (hl2 : m2.length ≤ 4) (hl3 : m3.length ≤ 4) :
    tilesFold emptyGridB
      (placeTiles false 0 m0 3 (-1) ++ placeTiles false 1 m1 3 (-1) ++
        placeTiles false 2 m2 3 (-1) ++ placeTiles false 3 m3 3 (-1)) =
    [[(m0 ++ List.replicate (4 - m0.length) 0).reverse.getD 0 0,
      (m1 ++ List.replicate (4 - m1.length) 0).reverse.getD 0 0,
      (m2 ++ List.replicate (4 - m2.length) 0).reverse.getD 0 0,
      (m3 ++ List.replicate (4 - m3.length) 0).reverse.getD 0 0],
     [(m0 ++ List.replicate (4 - m0.length) 0).reverse.getD 1 0,
      (m1 ++ List.replicate (4 - m1.length) 0).reverse.getD 1 0,
      (m2 ++ List.replicate (4 - m2.length) 0).reverse.getD 1 0,
      (m3 ++ List.replicate (4 - m3.length) 0).reverse.getD 1 0],
     [(m0 ++ List.replicate (4 - m0.length) 0).reverse.getD 2 0,
      (m1 ++ List.replicate (4 - m1.length) 0).reverse.getD 2 0,
      (m2 ++ List.replicate (4 - m2.length) 0).reverse.getD 2 0,
      (m3 ++ List.replicate (4 - m3.length) 0).reverse.getD 2 0],
     [(m0 ++ List.replicate (4 - m0.length) 0).reverse.getD 3 0,
      (m1 ++ List.replicate (4 - m1.length) 0).reverse.getD 3 0,
      (m2 ++ List.replicate (4 - m2.length) 0).reverse.getD 3 0,
      (m3 ++ List.replicate (4 - m3.length) 0).reverse.getD 3 0]] := by
  rw [tilesFold_append, tilesFold_append, tilesFold_append]
  rw [tilesFold_place_v3 0 (by omega) m0 emptyGridB hl0]
  rw [tilesFold_place_v3 1 (by omega) m1 _ hl1]
  rw [tilesFold_place_v3 2 (by omega) m2 _ hl2]
  rw [tilesFold_place_v3 3 (by omega) m3 _ hl3]
  have wfE : emptyGridB.length = 4 ∧ ∀ row ∈ emptyGridB, row.length = 4 := by
    decide
  have wf1 := writeColRev_WF 0 m0 3 emptyGridB wfE.1 wfE.2
  have wf2 := writeColRev_WF 1 m1 3 _ wf1.1 wf1.2
  have wf3 := writeColRev_WF 2 m2 3 _ wf2.1 wf2.2
  have wf4 := writeColRev_WF 3 m3 3 _ wf3.1 wf3.2
  refine board_ext _ _ wf4.1 wf4.2 rfl ?_ ?_
  · intro row hrow
    simp only [List.mem_cons, List.not_mem_nil, or_false] at hrow
    rcases hrow with h | h | h | h <;> subst h <;> rfl
  · intro i hi j hj
    interval_cases j
    · rw [writeColRev_cell_ne 3 m3 3 _ i 0 (by omega),
        writeColRev_cell_ne 2 m2 3 _ i 0 (by omega),
        writeColRev_cell_ne 1 m1 3 _ i 0 (by omega),
        writeColRev_cell_own 0 (by omega) m0 3 emptyGridB wfE.1 wfE.2
          (by omega) (by omega) i hi,
        cell_emptyGridB, own_pad_rev m0 hl0 i hi]
      interval_cases i <;> rfl
    · rw [writeColRev_cell_ne 3 m3 3 _ i 1 (by omega),
        writeColRev_cell_ne 2 m2 3 _ i 1 (by omega),
        writeColRev_cell_own 1 (by omega) m1 3 _ wf1.1 wf1.2 (by omega)
          (by omega) i hi,
        writeColRev_cell_ne 0 m0 3 _ i 1 (by omega),
        cell_emptyGridB, own_pad_rev m1 hl1 i hi]
      interval_cases i <;> rfl
    · rw [writeColRev_cell_ne 3 m3 3 _ i 2 (by omega),
        writeColRev_cell_own 2 (by omega) m2 3 _ wf2.1 wf2.2 (by omega)
          (by omega) i hi,
        writeColRev_cell_ne 1 m1 3 _ i 2 (by omega),
        writeColRev_cell_ne 0 m0 3 _ i 2 (by omega),
        cell_emptyGridB, own_pad_rev m2 hl2 i hi]
      interval_cases i <;> rfl
    · rw [writeColRev_cell_own 3 (by omega) m3 3 _ wf3.1 wf3.2 (by omega)
          (by omega) i hi,
        writeColRev_cell_ne 2 m2 3 _ i 3 (by omega),
        writeColRev_cell_ne 1 m1 3 _ i 3 (by omega),
        writeColRev_cell_ne 0 m0 3 _ i 3 (by omega),
        cell_emptyGridB, own_pad_rev m3 hl3 i hi]
      interval_cases i <;> rfl

theorem p0_up_equiv (r0 r1 r2 r3 : List Nat) (h0 : r0.length = 4)
    (h1 : r1.length = 4) (h2 : r2.length = 4) (h3 : r3.length = 4) :
    tilesToGrid (p0Move .up (gridToTiles [r0, r1, r2, r3])).1 =
      (moveGrid .up [r0, r1, r2, r3]).1 ∧
    (p0Move .up (gridToTiles [r0, r1, r2, r3])).2.1 =
      (moveGrid .up [r0, r1, r2, r3]).2.1 := by
  obtain ⟨a00, a01, a02, a03, rfl⟩ := exists_four_list r0 h0
  obtain ⟨a10, a11, a12, a13, rfl⟩ := exists_four_list r1 h1
  obtain ⟨a20, a21, a22, a23, rfl⟩ := exists_four_list r2 h2
  obtain ⟨a30, a31, a32, a33, rfl⟩ := exists_four_list r3 h3
  have hcol : ∀ j : Nat, j < 4 →
      ((gridToTiles [[a00, a01, a02, a03], [a10, a11, a12, a13],
          [a20, a21, a22, a23], [a30, a31, a32, a33]]).filter
        fun t => t.col == (j : Int)) =
      colLine j (([a00, a01, a02, a03] : List Nat).getD j 0)
        (([a10, a11, a12, a13] : List Nat).getD j 0)
        (([a20, a21, a22, a23] : List Nat).getD j 0)
        (([a30, a31, a32, a33] : List Nat).getD j 0) := by
    intro j hj
    rw [gridToTiles_four]
    simp only [List.filter_append]
    rw [filter_col_rowTiles4 0 j hj a00 a01 a02 a03,
      filter_col_rowTiles4 1 j hj a10 a11 a12 a13,
      filter_col_rowTiles4 2 j hj a20 a21 a22 a23,
      filter_col_rowTiles4 3 j hj a30 a31 a32 a33]
    rfl
  have hlen0 : (mergeSpec ([a00, a10, a20, a30].filter
      fun v => v != 0)).1.length ≤ 4 :=
    le_trans (mergeSpec_length_le _)
      (by simpa using List.length_filter_le (fun v => v != 0) [a00, a10, a20, a30])
  have hlen1 : (mergeSpec ([a01, a11, a21, a31].filter
      fun v => v != 0)).1.length ≤ 4 :=
    le_trans (mergeSpec_length_le _)
      (by simpa using List.length_filter_le (fun v => v != 0) [a01, a11, a21, a31])
  have hlen2 : (mergeSpec ([a02, a12, a22, a32].filter
      fun v => v != 0)).1.length ≤ 4 :=
    le_trans (mergeSpec_length_le _)
      (by simpa using List.length_filter_le (fun v => v != 0) [a02, a12, a22, a32])
  have hlen3 : (mergeSpec ([a03, a13, a23, a33].filter
      fun v => v != 0)).1.length ≤ 4 :=
    le_trans (mergeSpec_length_le _)
      (by simpa using List.length_filter_le (fun v => v != 0) [a03, a13, a23, a33])
  rw [p0Move_up_unfold]
  simp only [p0MoveStep_eq]
  simp only [if_true, Bool.false_eq_true, if_false]
  rw [hcol 0 (by omega), hcol 1 (by omega), hcol 2 (by omega),
    hcol 3 (by omega)]
  simp only [List.getD_cons_zero, List.getD_cons_succ]
  rw [sortTiles_sorted (tileKey false) _ (colLine_pairwise 0 a00 a10 a20 a30),
    sortTiles_sorted (tileKey false) _ (colLine_pairwise 1 a01 a11 a21 a31),
    sortTiles_sorted (tileKey false) _ (colLine_pairwise 2 a02 a12 a22 a32),
    sortTiles_sorted (tileKey false) _ (colLine_pairwise 3 a03 a13 a23 a33)]
  rw [(procLine_spec false 0 (colLine 0 a00 a10 a20 a30) 0 1).1,
    (procLine_spec false 0 (colLine 0 a00 a10 a20 a30) 0 1).2,
    (procLine_spec false 1 (colLine 1 a01 a11 a21 a31) 0 1).1,
    (procLine_spec false 1 (colLine 1 a01 a11 a21 a31) 0 1).2,
    (procLine_spec false 2 (colLine 2 a02 a12 a22 a32) 0 1).1,
    (procLine_spec false 2 (colLine 2 a02 a12 a22 a32) 0 1).2,
    (procLine_spec false 3 (colLine 3 a03 a13 a23 a33) 0 1).1,
    (procLine_spec false 3 (colLine 3 a03 a13 a23 a33) 0 1).2]
  rw [colLine_map_value 0 a00 a10 a20 a30, colLine_map_value 1 a01 a11 a21 a31,
    colLine_map_value 2 a02 a12 a22 a32, colLine_map_value 3 a03 a13 a23 a33]
  simp only [List.nil_append, Nat.zero_add, Bool.false_or]
  constructor
  · rw [tilesToGrid_fold]
    rw [tilesFold_cols4 _ _ _ _ hlen0 hlen1 hlen2 hlen3]
    rw [moveGrid_up_eq]
    dsimp only
    rw [slideLeft_fst [a00, a10, a20, a30], slideLeft_fst [a01, a11, a21, a31],
      slideLeft_fst [a02, a12, a22, a32], slideLeft_fst [a03, a13, a23, a33]]
    simp only [show GRID_SIZE = 4 from rfl]
  · rw [moveGrid_up_eq]
    dsimp only
    rw [slideLeft_snd [a00, a10, a20, a30], slideLeft_snd [a01, a11, a21, a31],
      slideLeft_snd [a02, a12, a22, a32], slideLeft_snd [a03, a13, a23, a33]]

theorem p0_down_equiv (r0 r1 r2 r3 : List Nat) (h0 : r0.length = 4)
    (h1 : r1.length = 4) (h2 : r2.length = 4) (h3 : r3.length = 4) :
    tilesToGrid (p0Move .down (gridToTiles [r0, r1, r2, r3])).1 =
      (moveGrid .down [r0, r1, r2, r3]).1 ∧
    (p0Move .down (gridToTiles [r0, r1, r2, r3])).2.1 =
      (moveGrid .down [r0, r1, r2, r3]).2.1 := by
  obtain ⟨a00, a01, a02, a03, rfl⟩ := exists_four_list r0 h0
  obtain ⟨a10, a11, a12, a13, rfl⟩ := exists_four_list r1 h1
  obtain ⟨a20, a21, a22, a23, rfl⟩ := exists_four_list r2 h2
  obtain ⟨a30, a31, a32, a33, rfl⟩ := exists_four_list r3 h3
  have hcol : ∀ j : Nat, j < 4 →
      ((gridToTiles [[a00, a01, a02, a03], [a10, a11, a12, a13],
          [a20, a21, a22, a23], [a30, a31, a32, a33]]).filter
        fun t => t.col == (j : Int)) =
      colLine j (([a00, a01, a02, a03] : List Nat).getD j 0)
        (([a10, a11, a12, a13] : List Nat).getD j 0)
        (([a20, a21, a22, a23] : List Nat).getD j 0)
        (([a30, a31, a32, a33] : List Nat).getD j 0) := by
    intro j hj
    rw [gridToTiles_four]
    simp only [List.filter_append]
    rw [filter_col_rowTiles4 0 j hj a00 a01 a02 a03,
      filter_col_rowTiles4 1 j hj a10 a11 a12 a13,
      filter_col_rowTiles4 2 j hj a20 a21 a22 a23,
      filter_col_rowTiles4 3 j hj a30 a31 a32 a33]
    rfl
  have hlen0 : (mergeSpec (([a00, a10, a20, a30].filter
      fun v => v != 0).reverse)).1.length ≤ 4 :=
    le_trans (mergeSpec_length_le _)
      (by simpa using List.length_filter_le (fun v => v != 0) [a00, a10, a20, a30])
  have hlen1 : (mergeSpec (([a01, a11, a21, a31].filter
      fun v => v != 0).reverse)).1.length ≤ 4 :=
    le_trans (mergeSpec_length_le _)
      (by simpa using List.length_filter_le (fun v => v != 0) [a01, a11, a21, a31])
  have hlen2 : (mergeSpec (([a02, a12, a22, a32].filter
      fun v => v != 0).reverse)).1.length ≤ 4 :=
    le_trans (mergeSpec_length_le _)
      (by simpa using List.length_filter_le (fun v => v != 0) [a02, a12, a22, a32])
  have hlen3 : (mergeSpec (([a03, a13, a23, a33].filter
      fun v => v != 0).reverse)).1.length ≤ 4 :=
    le_trans (mergeSpec_length_le _)
      (by simpa using List.length_filter_le (fun v => v != 0) [a03, a13, a23, a33])
  rw [p0Move_down_unfold]
  simp only [p0MoveStep_eq]
  simp only [if_true, Bool.false_eq_true, if_false]
  rw [hcol 0 (by omega), hcol 1 (by omega), hcol 2 (by omega),
    hcol 3 (by omega)]
  simp only [List.getD_cons_zero, List.getD_cons_succ]
  rw [sortTiles_rev (tileKey false) _ (colLine_pairwise 0 a00 a10 a20 a30),
    sortTiles_rev (tileKey false) _ (colLine_pairwise 1 a01 a11 a21 a31),
    sortTiles_rev (tileKey false) _ (colLine_pairwise 2 a02 a12 a22 a32),
    sortTiles_rev (tileKey false) _ (colLine_pairwise 3 a03 a13 a23 a33)]
  rw [(procLine_spec false 0 ((colLine 0 a00 a10 a20 a30).reverse)
      ((GRID_SIZE : Int) - 1) (-1)).1,
    (procLine_spec false 0 ((colLine 0 a00 a10 a20 a30).reverse)
      ((GRID_SIZE : Int) - 1) (-1)).2,
    (procLine_spec false 1 ((colLine 1 a01 a11 a21 a31).reverse)
      ((GRID_SIZE : Int) - 1) (-1)).1,
    (procLine_spec false 1 ((colLine 1 a01 a11 a21 a31).reverse)
      ((GRID_SIZE : Int) - 1) (-1)).2,
    (procLine_spec false 2 ((colLine 2 a02 a12 a22 a32).reverse)
      ((GRID_SIZE : Int) - 1) (-1)).1,
    (procLine_spec false 2 ((colLine 2 a02 a12 a22 a32).reverse)
      ((GRID_SIZE : Int) - 1) (-1)).2,
    (procLine_spec false 3 ((colLine 3 a03 a13 a23 a33).reverse)
      ((GRID_SIZE : Int) - 1) (-1)).1,
    (procLine_spec false 3 ((colLine 3 a03 a13 a23 a33).reverse)
      ((GRID_SIZE : Int) - 1) (-1)).2]
  simp only [List.map_reverse]
  rw [colLine_map_value 0 a00 a10 a20 a30, colLine_map_value 1 a01 a11 a21 a31,
    colLine_map_value 2 a02 a12 a22 a32, colLine_map_value 3 a03 a13 a23 a33]
  rw [show ((GRID_SIZE : Int) - 1) = 3 from by decide]
  simp only [List.nil_append, Nat.zero_add, Bool.false_or]
  constructor
  · rw [tilesToGrid_fold]
    rw [tilesFold_cols4_rev _ _ _ _ hlen0 hlen1 hlen2 hlen3]
    rw [moveGrid_down_eq]
    dsimp only
    rw [show ([a30, a20, a10, a00] : List Nat) =
        ([a00, a10, a20, a30] : List Nat).reverse from rfl,
      show ([a31, a21, a11, a01] : List Nat) =
        ([a01, a11, a21, a31] : List Nat).reverse from rfl,
      show ([a32, a22, a12, a02] : List Nat) =
        ([a02, a12, a22, a32] : List Nat).reverse from rfl,
      show ([a33, a23, a13, a03] : List Nat) =
        ([a03, a13, a23, a33] : List Nat).reverse from rfl]
    rw [slideLeft_fst (([a00, a10, a20, a30] : List Nat).reverse),
      slideLeft_fst (([a01, a11, a21, a31] : List Nat).reverse),
      slideLeft_fst (([a02, a12, a22, a32] : List Nat).reverse),
      slideLeft_fst (([a03, a13, a23, a33] : List Nat).reverse)]
    simp only [List.filter_reverse]
    simp only [show GRID_SIZE = 4 from rfl]
  · rw [moveGrid_down_eq]
    dsimp only
    rw [show ([a30, a20, a10, a00] : List Nat) =
        ([a00, a10, a20, a30] : List Nat).reverse from rfl,
      show ([a31, a21, a11, a01] : List Nat) =
        ([a01, a11, a21, a31] : List Nat).reverse from rfl,
      show ([a32, a22, a12, a02] : List Nat) =
        ([a02, a12, a22, a32] : List Nat).reverse from rfl,
      show ([a33, a23, a13, a03] : List Nat) =
        ([a03, a13, a23, a33] : List Nat).reverse from rfl]
    rw [slideLeft_snd (([a00, a10, a20, a30] : List Nat).reverse),
      slideLeft_snd (([a01, a11, a21, a31] : List Nat).reverse),
      slideLeft_snd (([a02, a12, a22, a32] : List Nat).reverse),
      slideLeft_snd (([a03, a13, a23, a33] : List Nat).reverse)]
    simp only [List.filter_reverse]

/-- C10: for every well-formed 4×4 board and every direction, the grid-based
move of src/App.tsx and the tile-list move of src/unnamed/part_000 (painted
back onto a grid) produce the same pre-spawn board and the same point
total. (The claim's third conjunct — equal moved flags — fails; see the
counterexample.) -/
theorem C10_board_points_agree (g : Board) (hg : WF g) (d : Direction) :
    tilesToGrid (p0Move d (gridToTiles g)).1 = (moveGrid d g).1 ∧
    (p0Move d (gridToTiles g)).2.1 = (moveGrid d g).2.1 := by
  obtain ⟨r0, r1, r2, r3, rfl, hr0, hr1, hr2, hr3⟩ := WF_destruct g hg
  cases d with
  | up => exact p0_up_equiv r0 r1 r2 r3 hr0 hr1 hr2 hr3
  | down => exact p0_down_equiv r0 r1 r2 r3 hr0 hr1 hr2 hr3
  | left => exact p0_left_equiv r0 r1 r2 r3 hr0 hr1 hr2 hr3
  | right => exact p0_right_equiv r0 r1 r2 r3 hr0 hr1 hr2 hr3

/-- C10 counterexample: on `[[2,2,0,0],…]` moved left the two engines
disagree on the moved flag — the tile engine reports `false` (the merged
tile keeps the first source tile's cell), the grid engine reports `true`. -/
theorem C10_moved_flag_counterexample :
    (p0Move .left
      (gridToTiles
        [[2, 2, 0, 0], [0, 0, 0, 0], [0, 0, 0, 0], [0, 0, 0, 0]])).2.2
      = false ∧
    (moveGrid .left
      [[2, 2, 0, 0], [0, 0, 0, 0], [0, 0, 0, 0], [0, 0, 0, 0]]).2.2
      = true := by
  refine ⟨by decide, ?_⟩
  rw [moveGrid_left_eq]
  simp [slideLeft_eq]
  decide

/-- Witness instantiating `C10_board_points_agree` on a concrete board and
direction. -/
theorem C10_witness :
    WF [[2, 0, 0, 2], [0, 0, 0, 0], [0, 0, 0, 0], [0, 0, 0, 0]] ∧
    (tilesToGrid (p0Move .right (gridToTiles
        [[2, 0, 0, 2], [0, 0, 0, 0], [0, 0, 0, 0], [0, 0, 0, 0]])).1 =
      (moveGrid .right
        [[2, 0, 0, 2], [0, 0, 0, 0], [0, 0, 0, 0], [0, 0, 0, 0]]).1 ∧
     (p0Move .right (gridToTiles
        [[2, 0, 0, 2], [0, 0, 0, 0], [0, 0, 0, 0], [0, 0, 0, 0]])).2.1 =
      (moveGrid .right
        [[2, 0, 0, 2], [0, 0, 0, 0], [0, 0, 0, 0], [0, 0, 0, 0]]).2.1) :=
  ⟨by decide, C10_board_points_agree
    [[2, 0, 0, 2], [0, 0, 0, 0], [0, 0, 0, 0], [0, 0, 0, 0]]
    (by decide) .right⟩

end Game2048
